import Mathlib

/-!
Verification of the PDF-article reconciliation engine of
`ipsas/modules/pdf_matcher.py` (class `PDFMatcher`).

The Python code is shallowly embedded: strings are `String` (lists of
characters), machine floats are modelled as real numbers `ℝ` (the spec
treats the scores as exact arithmetic), Python `None`/falsy values are
`Option`/explicit emptiness tests, in-place mutation of the lxml tree is
explicit state passing on a pure element tree, and fatal `raise` paths are
`Except`.  Python's regular expressions are modelled by equivalent
character-list functions for the Latin/Cyrillic repertoire the system
processes; each definition cites the source lines it embeds.
-/

set_option maxHeartbeats 1000000
set_option linter.unusedVariables false

/-! ## Character classes and elementary string operations -/

/-- Python `\s` (the whitespace the source's `strip`, `split` and `\s`
patterns recognise: space, tab, newline, carriage return, vertical tab,
form feed; exotic Unicode spaces are not used by the system). -/
def isWsChar (c : Char) : Bool :=
  c.toNat = 32 || c.toNat = 9 || c.toNat = 10 || c.toNat = 13 ||
  c.toNat = 11 || c.toNat = 12

/-- Python `str.lower` restricted to the ASCII and Cyrillic repertoire the
manifests use: `A`..`Z` (65-90) shift by 32, `Ё` (0x401) maps to `ё`
(0x451), `А`..`Я` (0x410-0x42F) shift by 32. -/
def charLower (c : Char) : Char :=
  if 65 ≤ c.toNat ∧ c.toNat ≤ 90 then Char.ofNat (c.toNat + 32)
  else if c.toNat = 0x401 then Char.ofNat 0x451
  else if 0x410 ≤ c.toNat ∧ c.toNat ≤ 0x42F then Char.ofNat (c.toNat + 32)
  else c

/-- Python `str.upper` restricted to the same repertoire: `a`..`z`
(97-122), `ё` (0x451) and `а`..`я` (0x430-0x44F) map up. -/
def charUpper (c : Char) : Char :=
  if 97 ≤ c.toNat ∧ c.toNat ≤ 122 then Char.ofNat (c.toNat - 32)
  else if c.toNat = 0x451 then Char.ofNat 0x401
  else if 0x430 ≤ c.toNat ∧ c.toNat ≤ 0x44F then Char.ofNat (c.toNat - 32)
  else c

def pyLower (l : List Char) : List Char := l.map charLower

def pyUpper (l : List Char) : List Char := l.map charUpper

/-- Python `str.strip()`: drop whitespace from both ends. -/
def pyStrip (l : List Char) : List Char :=
  ((l.dropWhile isWsChar).reverse.dropWhile isWsChar).reverse

/-- Drop a maximal trailing run of characters satisfying `p`
(the `[...]+$` substitutions of the source). -/
def dropTrailing (p : Char → Bool) (l : List Char) : List Char :=
  (l.reverse.dropWhile p).reverse

/-- Does `p` occur as a leading segment of `l`?  (Plain list matching for
the literal parts of the source's anchored regular expressions.) -/
def listStarts : List Char → List Char → Bool
  | [], _ => true
  | _ :: _, [] => false
  | p :: ps, c :: cs => p = c && listStarts ps cs

/-! ## Identifier normalisation (`pdf_matcher.py` lines 217-263) -/

/-- A separator accepted after the `doi`/`DOI`/`EDN` tag: the `[:\s]`
class (`:` is code 58). -/
def isDoiSep (c : Char) : Bool := c.toNat = 58 || isWsChar c

/-- Does the list's head character satisfy `p`?  (False on an empty list.) -/
def headSat (p : Char → Bool) : List Char → Bool
  | c :: _ => p c
  | [] => false

/-- Whether the `^\s*(doi|DOI)[:\s]+` pattern matches at the start:
case-sensitive alternatives `doi`/`DOI` followed by at least one
separator, after optional leading whitespace. -/
def doiTagMatchB (l : List Char) : Bool :=
  (listStarts "doi".data (l.dropWhile isWsChar) ||
    listStarts "DOI".data (l.dropWhile isWsChar)) &&
  headSat isDoiSep ((l.dropWhile isWsChar).drop 3)

/-- `re.sub(r'^\s*(doi|DOI)[:\s]+', '', d)` (line 228): the separators are
consumed greedily; no change when the pattern does not match at the start. -/
def stripDoiTag (l : List Char) : List Char :=
  if doiTagMatchB l then ((l.dropWhile isWsChar).drop 3).dropWhile isDoiSep else l

/-- The optional `(https?://)` piece of the URL pattern. -/
def urlSchemeDrop (l : List Char) : List Char :=
  if listStarts "https://".data l then l.drop 8
  else if listStarts "http://".data l then l.drop 7
  else l

/-- The optional `(dx\.)` piece of the URL pattern. -/
def urlDxDrop (l : List Char) : List Char :=
  if listStarts "dx.".data l then l.drop 3 else l

/-- Whether the `^(https?://)?((dx\.)?doi\.org/|doi\.org/)` pattern
matches at the start (the alternation reduces to an optional `dx.`
before `doi.org/`; when no `doi.org/` follows the optional pieces the
whole pattern fails). -/
def urlTagMatchB (l : List Char) : Bool :=
  listStarts "doi.org/".data (urlDxDrop (urlSchemeDrop l))

/-- `re.sub(r'^(https?://)?((dx\.)?doi\.org/|doi\.org/)', '', d)`
(line 229). -/
def stripUrlTag (l : List Char) : List Char :=
  if urlTagMatchB l then (urlDxDrop (urlSchemeDrop l)).drop 8 else l

/-- The `[)\]},;\.]` class of trailing rubbish removed at line 232
(codes 41, 93, 125, 44, 59, 46). -/
def isTrailPunct (c : Char) : Bool :=
  c.toNat = 41 || c.toNat = 93 || c.toNat = 125 ||
  c.toNat = 44 || c.toNat = 59 || c.toNat = 46

/-- Whether the string ends in a character of the trailing-rubbish class. -/
def endsTrailPunctB (l : List Char) : Bool :=
  headSat isTrailPunct l.reverse

/-- `PDFMatcher.normalize_doi` (lines 217-237): strip, drop a `doi:` tag,
drop a `doi.org` URL front, drop trailing punctuation, lowercase, strip. -/
def normalize_doi (doi : String) : String :=
  if doi = "" then "" else
  ⟨pyStrip (pyLower (dropTrailing isTrailPunct
    (stripUrlTag (stripDoiTag (pyStrip doi.data)))))⟩

/-- Uppercase Latin letter or digit: the `[A-Z0-9]` class of line 253
(codes 65-90 and 48-57). -/
def isUpperAlnum (c : Char) : Bool :=
  (65 ≤ c.toNat && c.toNat ≤ 90) || (48 ≤ c.toNat && c.toNat ≤ 57)

/-- Whether the `^\s*(edn|EDN)[:\s]+` pattern (case-insensitive) matches
at the start of the already uppercased string, where only the uppercase
spelling can occur. -/
def ednTagMatchB (l : List Char) : Bool :=
  listStarts "EDN".data (l.dropWhile isWsChar) &&
  headSat isDoiSep ((l.dropWhile isWsChar).drop 3)

/-- `re.sub(r'^\s*(edn|EDN)[:\s]+', '', e, flags=re.IGNORECASE)`
(line 250), applied by the source to an already uppercased string. -/
def stripEdnTag (l : List Char) : List Char :=
  if ednTagMatchB l then ((l.dropWhile isWsChar).drop 3).dropWhile isDoiSep else l

/-- The uppercase-alphanumeric residue of an EDN input: strip + upper
(line 247), drop the `EDN:` tag (line 250), keep `[A-Z0-9]` (line 253). -/
def ednAlnumChars (s : String) : List Char :=
  if s = "" then [] else
  (stripEdnTag (pyUpper (pyStrip s.data))).filter isUpperAlnum

/-- `PDFMatcher.normalize_edn` (lines 239-263): on exactly 6 residue
characters the residue is returned; on more, its first 6; on fewer, the
short residue as is. -/
def normalize_edn (edn : String) : String :=
  if edn = "" then "" else
  if (ednAlnumChars edn).length = 6 then ⟨ednAlnumChars edn⟩
  else if (ednAlnumChars edn).length > 6 then ⟨(ednAlnumChars edn).take 6⟩
  else ⟨ednAlnumChars edn⟩

/-- `PDFMatcher._is_valid_doi` (lines 387-419): length ≥ 10, starts with
`10.`, a prefix `10.` + 3-9 digits before the first `/`, suffix length ≥ 2. -/
def is_valid_doi (doi : String) : Bool :=
  if doi = "" then false else
  if doi.data.length < 10 then false else
  if ¬ listStarts "10.".data doi.data then false else
  if ¬ doi.data.contains '/' then false else
  let pfx := doi.data.takeWhile (fun c => c ≠ '/')
  let sfx := (doi.data.dropWhile (fun c => c ≠ '/')).drop 1
  let digits := pfx.drop 3
  if ¬ (listStarts "10.".data pfx ∧ digits ≠ [] ∧ digits.length ≤ 9 ∧
        digits.all (fun c => '0' ≤ c && c ≤ '9') ∧ pfx.length = digits.length + 3) then false
  else if sfx = [] ∨ sfx.length < 2 then false
  else true

example : normalize_doi "doi:doi:10.1234/abc" = "doi:10.1234/abc" := by decide
example : normalize_doi "doi:10.1234/abc" = "10.1234/abc" := by decide
example : normalize_doi "doi.org/doi.org/10.1/ab" = "doi.org/10.1/ab" := by decide
example : normalize_doi "10.1/ab. ." = "10.1/ab." := by decide
example : normalize_doi "DOI: 10.1234/AbC." = "10.1234/abc" := by decide
example : normalize_edn "ABCDEFG" = "ABCDEF" := by decide
example : normalize_edn "edn: abcDEF" = "ABCDEF" := by decide
example : normalize_edn "AB" = "AB" := by decide
example : is_valid_doi "10.12345/abcdefghij" = true := by decide
example : is_valid_doi "10.1/ab" = false := by decide

/-! ## Character and list lemmas -/

theorem toNat_charOfNat (n : Nat) (h : n < 0xd800) : (Char.ofNat n).toNat = n := by
  unfold Char.ofNat
  rw [dif_pos (Or.inl h)]
  simp only [Char.ofNatAux, Char.toNat]
  simp [UInt32.ofNat', UInt32.toNat, BitVec.toNat_ofNat]

theorem isWsChar_false_of (c : Char) (h : 33 ≤ c.toNat) : isWsChar c = false := by
  unfold isWsChar
  simp only [Bool.or_eq_false_iff, decide_eq_false_iff_not]
  omega

theorem charLower_idem (c : Char) : charLower (charLower c) = charLower c := by
  unfold charLower
  by_cases h1 : 65 ≤ c.toNat ∧ c.toNat ≤ 90
  · rw [if_pos h1]
    have ht : (Char.ofNat (c.toNat + 32)).toNat = c.toNat + 32 :=
      toNat_charOfNat _ (by omega)
    rw [if_neg (by rw [ht]; omega), if_neg (by rw [ht]; omega), if_neg (by rw [ht]; omega)]
  · rw [if_neg h1]
    by_cases h2 : c.toNat = 1025
    · rw [if_pos h2]
      have ht : (Char.ofNat 1105).toNat = 1105 := toNat_charOfNat _ (by omega)
      rw [if_neg (by rw [ht]; omega), if_neg (by rw [ht]; omega), if_neg (by rw [ht]; omega)]
    · rw [if_neg h2]
      by_cases h3 : 1040 ≤ c.toNat ∧ c.toNat ≤ 1071
      · rw [if_pos h3]
        have ht : (Char.ofNat (c.toNat + 32)).toNat = c.toNat + 32 :=
          toNat_charOfNat _ (by omega)
        rw [if_neg (by rw [ht]; omega), if_neg (by rw [ht]; omega),
          if_neg (by rw [ht]; omega)]
      · rw [if_neg h3, if_neg h1, if_neg h2, if_neg h3]

theorem charLower_ws (c : Char) : isWsChar (charLower c) = isWsChar c := by
  unfold charLower
  by_cases h1 : 65 ≤ c.toNat ∧ c.toNat ≤ 90
  · rw [if_pos h1, isWsChar_false_of _ (by rw [toNat_charOfNat _ (by omega)]; omega),
      isWsChar_false_of c (by omega)]
  · rw [if_neg h1]
    by_cases h2 : c.toNat = 1025
    · rw [if_pos h2, isWsChar_false_of _ (by rw [toNat_charOfNat _ (by omega)]; omega),
        isWsChar_false_of c (by omega)]
    · rw [if_neg h2]
      by_cases h3 : 1040 ≤ c.toNat ∧ c.toNat ≤ 1071
      · rw [if_pos h3, isWsChar_false_of _ (by rw [toNat_charOfNat _ (by omega)]; omega),
          isWsChar_false_of c (by omega)]
      · rw [if_neg h3]

theorem charUpper_fix_of_upperAlnum (c : Char) (h : isUpperAlnum c = true) :
    charUpper c = c := by
  unfold isUpperAlnum at h
  simp only [Bool.or_eq_true, Bool.and_eq_true, decide_eq_true_eq] at h
  unfold charUpper
  rw [if_neg (by omega), if_neg (by omega), if_neg (by omega)]

theorem not_ws_of_upperAlnum (c : Char) (h : isUpperAlnum c = true) :
    isWsChar c = false := by
  apply isWsChar_false_of
  unfold isUpperAlnum at h
  simp only [Bool.or_eq_true, Bool.and_eq_true, decide_eq_true_eq] at h
  omega

theorem not_doiSep_of_upperAlnum (c : Char) (h : isUpperAlnum c = true) :
    isDoiSep c = false := by
  unfold isDoiSep
  rw [not_ws_of_upperAlnum c h]
  unfold isUpperAlnum at h
  simp only [Bool.or_eq_true, Bool.and_eq_true, decide_eq_true_eq] at h
  simp only [Bool.or_false, decide_eq_false_iff_not]
  omega

theorem dropWhile_eq_self_of_false {p : Char → Bool} {l : List Char}
    (h : ∀ c ∈ l, p c = false) : l.dropWhile p = l := by
  cases l with
  | nil => rfl
  | cons a t => exact List.dropWhile_cons_of_neg (by simp [h a (by simp)])

theorem dropWhile_dropWhile_same (p : Char → Bool) (l : List Char) :
    (l.dropWhile p).dropWhile p = l.dropWhile p := by
  induction l with
  | nil => rfl
  | cons a t ih =>
    by_cases h : p a = true
    · rw [List.dropWhile_cons_of_pos h, ih]
    · rw [List.dropWhile_cons_of_neg (by simp [h]),
        List.dropWhile_cons_of_neg (by simp [h])]

/-- The back-trimmed list is a prefix of the original. -/
theorem dropTrailing_isPrefix (p : Char → Bool) (l : List Char) :
    (l.reverse.dropWhile p).reverse <+: l := by
  obtain ⟨t, ht⟩ : l.reverse.dropWhile p <:+ l.reverse := List.dropWhile_suffix p
  exact ⟨t.reverse, by rw [← List.reverse_append, ht, List.reverse_reverse]⟩

/-- Front-trimmedness survives passing to a prefix. -/
theorem noLead_of_isPrefix {p : Char → Bool} {r l : List Char}
    (hpre : r <+: l) (hl : l.dropWhile p = l) : r.dropWhile p = r := by
  cases r with
  | nil => rfl
  | cons c cs =>
    obtain ⟨t, ht⟩ := hpre
    subst ht
    by_cases hc : p c = true
    · exfalso
      rw [List.cons_append, List.dropWhile_cons_of_pos hc] at hl
      have hlen : ((cs ++ t).dropWhile p).length ≤ (cs ++ t).length :=
        (List.dropWhile_suffix p).length_le
      rw [hl] at hlen
      simp at hlen
    · exact List.dropWhile_cons_of_neg (by simp [hc])

theorem pyStrip_noLead (l : List Char) :
    (pyStrip l).dropWhile isWsChar = pyStrip l := by
  unfold pyStrip
  exact noLead_of_isPrefix (dropTrailing_isPrefix _ _)
    (dropWhile_dropWhile_same _ _)

theorem pyStrip_noTrail (l : List Char) :
    (pyStrip l).reverse.dropWhile isWsChar = (pyStrip l).reverse := by
  unfold pyStrip
  rw [List.reverse_reverse]
  exact dropWhile_dropWhile_same _ _

theorem pyStrip_eq_self {l : List Char}
    (h1 : l.dropWhile isWsChar = l)
    (h2 : l.reverse.dropWhile isWsChar = l.reverse) : pyStrip l = l := by
  unfold pyStrip
  rw [h1, h2, List.reverse_reverse]

theorem pyStrip_idem (l : List Char) : pyStrip (pyStrip l) = pyStrip l :=
  pyStrip_eq_self (pyStrip_noLead l) (pyStrip_noTrail l)

theorem pyStrip_eq_self_of_all {l : List Char}
    (h : ∀ c ∈ l, isWsChar c = false) : pyStrip l = l :=
  pyStrip_eq_self (dropWhile_eq_self_of_false h)
    (dropWhile_eq_self_of_false (by simpa using h))

theorem pyLower_pyStrip_comm (l : List Char) :
    pyLower (pyStrip l) = pyStrip (pyLower l) := by
  have hfun : isWsChar ∘ charLower = isWsChar := by
    funext c
    exact charLower_ws c
  have hdw : ∀ m : List Char, (m.map charLower).dropWhile isWsChar =
      (m.dropWhile isWsChar).map charLower := by
    intro m
    rw [List.dropWhile_map, hfun]
  unfold pyStrip pyLower
  rw [List.map_reverse, ← hdw, List.map_reverse, ← hdw]

theorem pyLower_idem (l : List Char) : pyLower (pyLower l) = pyLower l := by
  unfold pyLower
  rw [List.map_map]
  congr 1
  funext c
  exact charLower_idem c

/-! ## C4 / C6 normalisation facts -/

theorem stripDoiTag_eq_self_of_no_match {l : List Char}
    (h : doiTagMatchB l = false) : stripDoiTag l = l := by
  unfold stripDoiTag
  rw [if_neg (by simp [h])]

theorem stripUrlTag_eq_self_of_no_match {l : List Char}
    (h : urlTagMatchB l = false) : stripUrlTag l = l := by
  unfold stripUrlTag
  rw [if_neg (by simp [h])]

theorem dropTrailing_eq_self_of_no_match {p : Char → Bool} {l : List Char}
    (h : headSat p l.reverse = false) : dropTrailing p l = l := by
  unfold dropTrailing
  have hrev : l.reverse.dropWhile p = l.reverse := by
    rcases hr : l.reverse with _ | ⟨c, t⟩
    · rfl
    · rw [hr] at h
      simp only [headSat] at h
      exact List.dropWhile_cons_of_neg (by simp [h])
  rw [hrev, List.reverse_reverse]

theorem stripEdnTag_eq_self_of_alnum {l : List Char}
    (h : ∀ c ∈ l, isUpperAlnum c = true) : stripEdnTag l = l := by
  have hmatch : ednTagMatchB l = false := by
    unfold ednTagMatchB
    rw [dropWhile_eq_self_of_false (fun c hc => not_ws_of_upperAlnum c (h c hc))]
    rcases hd : l.drop 3 with _ | ⟨c, t⟩
    · simp [headSat]
    · have hc : c ∈ l := List.drop_subset 3 l (by rw [hd]; simp)
      simp [headSat, not_doiSep_of_upperAlnum c (h c hc)]
  unfold stripEdnTag
  rw [if_neg (by simp [hmatch])]

/-- All characters of the EDN residue are uppercase alphanumerics. -/
theorem ednAlnumChars_upperAlnum (s : String) :
    ∀ c ∈ ednAlnumChars s, isUpperAlnum c = true := by
  intro c hc
  unfold ednAlnumChars at hc
  split_ifs at hc with h
  · cases hc
  · exact List.of_mem_filter hc

/-- `normalize_edn` always returns the first six residue characters. -/
theorem normalize_edn_eq_take (s : String) :
    normalize_edn s = ⟨(ednAlnumChars s).take 6⟩ := by
  unfold normalize_edn
  by_cases h0 : s = ""
  · rw [if_pos h0]
    subst h0
    rfl
  · rw [if_neg h0]
    by_cases h1 : (ednAlnumChars s).length = 6
    · rw [if_pos h1, List.take_of_length_le (by omega)]
    · rw [if_neg h1]
      by_cases h2 : (ednAlnumChars s).length > 6
      · rw [if_pos h2]
      · rw [if_neg h2, List.take_of_length_le (by omega)]

theorem length_normalize_edn (s : String) :
    (normalize_edn s).length = min 6 (ednAlnumChars s).length := by
  rw [normalize_edn_eq_take]
  show ((ednAlnumChars s).take 6).length = _
  rw [List.length_take]

theorem ednAlnumChars_of_alnum {s : String}
    (h : ∀ c ∈ s.data, isUpperAlnum c = true) (hs : s ≠ "") :
    ednAlnumChars s = s.data := by
  unfold ednAlnumChars
  rw [if_neg hs]
  have hstrip : pyStrip s.data = s.data :=
    pyStrip_eq_self_of_all (fun c hc => not_ws_of_upperAlnum c (h c hc))
  rw [hstrip]
  have hupper : pyUpper s.data = s.data := by
    unfold pyUpper
    conv_rhs => rw [← List.map_id s.data]
    exact List.map_congr_left (fun c hc => charUpper_fix_of_upperAlnum c (h c hc))
  rw [hupper, stripEdnTag_eq_self_of_alnum h, List.filter_eq_self.mpr h]

theorem normalize_edn_idem (s : String) :
    normalize_edn (normalize_edn s) = normalize_edn s := by
  by_cases hn : normalize_edn s = ""
  · rw [hn]
    rfl
  · have hdata : (normalize_edn s).data = (ednAlnumChars s).take 6 := by
      rw [normalize_edn_eq_take]
    have halnum : ∀ c ∈ (normalize_edn s).data, isUpperAlnum c = true := by
      intro c hc
      rw [hdata] at hc
      exact ednAlnumChars_upperAlnum s c (List.take_subset 6 _ hc)
    rw [normalize_edn_eq_take (normalize_edn s),
      ednAlnumChars_of_alnum halnum hn,
      List.take_of_length_le (by rw [hdata, List.length_take]; omega)]

theorem normalize_doi_idem_of_stable (s : String)
    (h1 : doiTagMatchB (normalize_doi s).data = false)
    (h2 : urlTagMatchB (normalize_doi s).data = false)
    (h3 : endsTrailPunctB (normalize_doi s).data = false) :
    normalize_doi (normalize_doi s) = normalize_doi s := by
  by_cases hn : normalize_doi s = ""
  · rw [hn]
    rfl
  · have hs : s ≠ "" := by
      intro hc
      apply hn
      rw [hc]
      rfl
    have hm : (normalize_doi s).data = pyStrip (pyLower (dropTrailing isTrailPunct
        (stripUrlTag (stripDoiTag (pyStrip s.data))))) := by
      unfold normalize_doi
      rw [if_neg hs]
    have hstrip : pyStrip (normalize_doi s).data = (normalize_doi s).data := by
      rw [hm]
      exact pyStrip_idem _
    have hlower : pyLower (normalize_doi s).data = (normalize_doi s).data := by
      rw [hm, pyLower_pyStrip_comm, pyLower_idem]
    generalize hgen : normalize_doi s = d at hn hstrip hlower h1 h2 h3 ⊢
    unfold normalize_doi
    rw [if_neg hn, hstrip, stripDoiTag_eq_self_of_no_match h1,
      stripUrlTag_eq_self_of_no_match h2,
      dropTrailing_eq_self_of_no_match (by exact h3), hlower, hstrip]

/-! ## General text normalisation (`normalize_text`, lines 208-215) -/

/-- Python `\w` (word character) for the Latin/Cyrillic repertoire:
digits (48-57), ASCII letters (65-90, 97-122), underscore (95), Cyrillic
letters `А-Яа-я` (0x410-0x44F) with `Ё` (0x401) and `ё` (0x451). -/
def isWordChar (c : Char) : Bool :=
  (48 ≤ c.toNat && c.toNat ≤ 57) || (65 ≤ c.toNat && c.toNat ≤ 90) ||
  (97 ≤ c.toNat && c.toNat ≤ 122) || c.toNat = 95 ||
  (0x410 ≤ c.toNat && c.toNat ≤ 0x44F) || c.toNat = 0x401 || c.toNat = 0x451

/-- Replace each whitespace run by a single space (`re.sub(r'\s+', ' ', ·)`). -/
def collapseWs : List Char → List Char
  | [] => []
  | c :: cs =>
      if isWsChar c && headSat isWsChar cs then collapseWs cs
      else (if isWsChar c then ' ' else c) :: collapseWs cs

/-- `re.sub(r'[^\w\s]', ' ', ·)` applied to one character. -/
def wordOrSpace (c : Char) : Char :=
  if isWordChar c || isWsChar c then c else ' '

/-- `PDFMatcher.normalize_text` (lines 208-215): lowercase, non-word
characters replaced by spaces, whitespace collapsed, stripped. -/
def normalize_text (text : String) : String :=
  if text = "" then "" else
  ⟨pyStrip (collapseWs ((pyLower text.data).map wordOrSpace))⟩

/-- Python `str.split()`: split on whitespace runs, no empty tokens
(`acc` carries the current token reversed). -/
def pySplitAux : List Char → List Char → List String
  | [], acc => if acc = [] then [] else [⟨acc.reverse⟩]
  | c :: cs, acc =>
      if isWsChar c then (if acc = [] then [] else [⟨acc.reverse⟩]) ++ pySplitAux cs []
      else pySplitAux cs (c :: acc)

def pySplit (l : List Char) : List String := pySplitAux l []

/-! ## Similarity engine (lines 750-946) -/

/-- `_text_to_vector` word list (lines 773-789): words of the (re-)
normalised text longer than 2 characters; the Python dict's keys are
these words, its values their relative frequencies. -/
def tfWords (t : String) : List String :=
  (pySplit (normalize_text t).data).filter (fun w => 2 < w.length)

/-- The term-frequency value of `_text_to_vector` (count / total). -/
noncomputable def tfVal (ws : List String) (w : String) : ℝ :=
  (ws.count w : ℝ) / (ws.length : ℝ)

/-- `PDFMatcher._cosine_similarity` (lines 757-771) over two finite key
sets with value functions (the Python dicts): zero on disjoint key sets
or a zero norm, else the normalised dot product over the common keys. -/
noncomputable def cosineSimFn (k1 k2 : Finset String) (v1 v2 : String → ℝ) : ℝ :=
  if k1 ∩ k2 = ∅ then 0 else
  if Real.sqrt (∑ w ∈ k1, v1 w * v1 w) = 0 ∨ Real.sqrt (∑ w ∈ k2, v2 w * v2 w) = 0
  then 0
  else (∑ w ∈ k1 ∩ k2, v1 w * v2 w) /
    (Real.sqrt (∑ w ∈ k1, v1 w * v1 w) * Real.sqrt (∑ w ∈ k2, v2 w * v2 w))

/-- The word-vector blend component of `calculate_title_similarity`
(lines 809-812): zero when either vector is empty. -/
noncomputable def titleCosine (t1 t2 : String) : ℝ :=
  if tfWords t1 ≠ [] ∧ tfWords t2 ≠ [] then
    cosineSimFn (tfWords t1).toFinset (tfWords t2).toFinset
      (tfVal (tfWords t1)) (tfVal (tfWords t2))
  else 0

/-- Tokens longer than 3 characters (lines 815-816). -/
def tokenSet (t : String) : Finset String :=
  ((pySplit t.data).filter (fun w => 3 < w.length)).toFinset

/-- The token-Jaccard component (lines 814-819). -/
noncomputable def tokenJaccard (t1 t2 : String) : ℝ :=
  if tokenSet t1 ≠ ∅ ∧ tokenSet t2 ≠ ∅ then
    ((tokenSet t1 ∩ tokenSet t2).card : ℝ) / ((tokenSet t1 ∪ tokenSet t2).card : ℝ)
  else 0

/-- The character trigrams of a list. -/
def trigramList : List Char → List String
  | a :: b :: c :: rest => ⟨[a, b, c]⟩ :: trigramList (b :: c :: rest)
  | _ => []

/-- `PDFMatcher._trigrams` (lines 750-755): whitespace collapsed after a
strip; strings shorter than 3 yield themselves (or nothing when empty). -/
def trigrams (s : String) : Finset String :=
  if (collapseWs (pyStrip s.data)).length < 3 then
    (if collapseWs (pyStrip s.data) = [] then ∅
     else {(⟨collapseWs (pyStrip s.data)⟩ : String)})
  else (trigramList (collapseWs (pyStrip s.data))).toFinset

/-- The trigram-Jaccard component (lines 821-826). -/
noncomputable def trigramJaccard (t1 t2 : String) : ℝ :=
  if trigrams t1 ≠ ∅ ∧ trigrams t2 ≠ ∅ then
    ((trigrams t1 ∩ trigrams t2).card : ℝ) / ((trigrams t1 ∪ trigrams t2).card : ℝ)
  else 0

/-- Word-level longest-common-subsequence length (the `_lcs_similarity`
dynamic programme, lines 845-870). -/
def lcsLen : List String → List String → Nat
  | [], _ => 0
  | _ :: _, [] => 0
  | a :: as, b :: bs =>
      if a = b then lcsLen as bs + 1
      else max (lcsLen (a :: as) bs) (lcsLen as (b :: bs))
termination_by l1 l2 => l1.length + l2.length
decreasing_by all_goals (simp_wf; try omega)

/-- `PDFMatcher._lcs_similarity` (lines 845-870): LCS length over the
word lists, normalised by the shorter list's length. -/
noncomputable def lcsSim (s1 s2 : String) : ℝ :=
  if pySplit s1.data = [] ∨ pySplit s2.data = [] then 0 else
  (lcsLen (pySplit s1.data) (pySplit s2.data) : ℝ) /
    ((min (pySplit s1.data).length (pySplit s2.data).length : ℕ) : ℝ)

/-- `PDFMatcher.calculate_title_similarity` (lines 791-843): zero on an
empty input or an empty normalisation, one on equal normalisations, else
the clamped linear blend of the four metrics. -/
noncomputable def calculate_title_similarity (title1 title2 : String) : ℝ :=
  if title1 = "" ∨ title2 = "" then 0 else
  if normalize_text title1 = "" ∨ normalize_text title2 = "" then 0 else
  if normalize_text title1 = normalize_text title2 then 1 else
  max 0 (min 1 (
    0.40 * titleCosine (normalize_text title1) (normalize_text title2) +
    0.30 * tokenJaccard (normalize_text title1) (normalize_text title2) +
    0.15 * trigramJaccard (normalize_text title1) (normalize_text title2) +
    0.15 * lcsSim (normalize_text title1) (normalize_text title2)))

/-- `PDFMatcher._norm_surname` (lines 872-879): strip, lowercase, `ё`
(0x451) to `е` (0x435), keep only `[a-zа-я\-']` (the hyphen is 45, the
apostrophe 39). -/
def norm_surname (s : String) : String :=
  if s = "" then "" else
  ⟨((pyLower (pyStrip s.data)).map
      (fun c => if c.toNat = 0x451 then Char.ofNat 0x435 else c)).filter
    (fun c => (97 ≤ c.toNat && c.toNat ≤ 122) ||
      (0x430 ≤ c.toNat && c.toNat ≤ 0x44F) || c.toNat = 45 || c.toNat = 39)⟩

/-- The `[,\s]+` separator class of `re.split` in `compare_authors`. -/
def isAuthorSep (c : Char) : Bool := c.toNat = 44 || isWsChar c

/-- The surnames `compare_authors` extracts from the PDF author strings
(lines 889-900): first token of each author, kept when longer than 2
characters, normalised, empty normalisations dropped. -/
def pdfSurnames (pdfAuthors : List String) : List String :=
  (pdfAuthors.filterMap (fun a =>
    if a = "" then none else
    if 2 < ((pyStrip a.data).takeWhile (fun c => ! isAuthorSep c)).length then
      some (norm_surname ⟨(pyStrip a.data).takeWhile (fun c => ! isAuthorSep c)⟩)
    else none)).filter (fun s => s ≠ "")

/-- The normalised manifest surnames (line 899): empty inputs dropped,
empty normalisations kept. -/
def xmlSurnNorm (xmlSurnames : List String) : List String :=
  (xmlSurnames.filter (fun s => s ≠ "")).map norm_surname

def authXmlSet (xmlSurnames : List String) : Finset String :=
  (xmlSurnNorm xmlSurnames).toFinset

def authPdfSet (pdfAuthors : List String) : Finset String :=
  (pdfSurnames pdfAuthors).toFinset

/-- Exact-overlap ratio (lines 908-915). -/
noncomputable def authorExactScore (P X : Finset String) : ℝ :=
  ((X ∩ P).card : ℝ) / (max X.card P.card : ℝ)

/-- Five-character-prefix partial matches (lines 917-932): half a point
for each unmatched PDF surname of length ≥ 5 sharing its first five
characters with some unmatched manifest surname of length ≥ 5. -/
noncomputable def authorPartialScore (P X : Finset String) : ℝ :=
  (0.5 * ((P.filter (fun p => p ∉ X ∧ 5 ≤ p.length ∧
      ∃ x ∈ X, x ∉ P ∧ 5 ≤ x.length ∧ p.data.take 5 = x.data.take 5)).card : ℝ)) /
    (max X.card P.card : ℝ)

/-- Presence-vector cosine over the surname union (lines 934-941). -/
noncomputable def authorCosine (P X : Finset String) : ℝ :=
  if X ∪ P ≠ ∅ then
    cosineSimFn (X ∪ P) (X ∪ P)
      (fun s => if s ∈ X then 1 else 0) (fun s => if s ∈ P then 1 else 0)
  else 0

/-- `PDFMatcher.compare_authors` (lines 881-946). -/
noncomputable def compare_authors (pdfAuthors xmlSurnames : List String) : ℝ :=
  if pdfAuthors = [] ∨ xmlSurnames = [] then 0 else
  if xmlSurnNorm xmlSurnames = [] ∨ pdfSurnames pdfAuthors = [] then 0 else
  if (authXmlSet xmlSurnames ∪ authPdfSet pdfAuthors).card = 0 then 0 else
  min 1 (0.5 * authorExactScore (authPdfSet pdfAuthors) (authXmlSet xmlSurnames) +
    0.3 * authorCosine (authPdfSet pdfAuthors) (authXmlSet xmlSurnames) +
    0.2 * authorPartialScore (authPdfSet pdfAuthors) (authXmlSet xmlSurnames))

/-! ## Idempotence of `normalize_text`
(`_text_to_vector` re-normalises its input, line 778, so the fixed-point
behaviour of `normalize_text` on its own output matters.) -/

/-- No two adjacent characters are both whitespace. -/
def noWsPair (l : List Char) : Prop :=
  List.Chain' (fun a b => ¬ (isWsChar a = true ∧ isWsChar b = true)) l

theorem isWsChar_space : isWsChar ' ' = true := by decide

theorem headSat_ws_collapseWs (l : List Char) :
    headSat isWsChar (collapseWs l) = headSat isWsChar l := by
  induction l with
  | nil => rfl
  | cons c cs ih =>
    unfold collapseWs
    by_cases h : (isWsChar c && headSat isWsChar cs) = true
    · rw [if_pos h, ih]
      simp only [Bool.and_eq_true] at h
      rw [h.2]
      simp [headSat, h.1]
    · rw [if_neg h]
      simp only [headSat]
      by_cases hc : isWsChar c = true
      · rw [if_pos hc, hc, isWsChar_space]
      · rw [if_neg hc]

theorem mem_collapseWs {d : Char} {l : List Char} (h : d ∈ collapseWs l) :
    d ∈ l ∨ d = ' ' := by
  induction l with
  | nil => cases h
  | cons c cs ih =>
    unfold collapseWs at h
    by_cases hb : (isWsChar c && headSat isWsChar cs) = true
    · rw [if_pos hb] at h
      rcases ih h with h1 | h1
      · exact Or.inl (List.mem_cons_of_mem c h1)
      · exact Or.inr h1
    · rw [if_neg hb] at h
      rcases List.mem_cons.mp h with h1 | h1
      · by_cases hc : isWsChar c = true
        · rw [if_pos hc] at h1
          exact Or.inr h1
        · rw [if_neg hc] at h1
          exact Or.inl (h1 ▸ List.mem_cons_self c cs)
      · rcases ih h1 with h2 | h2
        · exact Or.inl (List.mem_cons_of_mem c h2)
        · exact Or.inr h2

theorem ws_space_collapseWs {d : Char} {l : List Char} (h : d ∈ collapseWs l)
    (hw : isWsChar d = true) : d = ' ' := by
  induction l with
  | nil => cases h
  | cons c cs ih =>
    unfold collapseWs at h
    by_cases hb : (isWsChar c && headSat isWsChar cs) = true
    · rw [if_pos hb] at h
      exact ih h
    · rw [if_neg hb] at h
      rcases List.mem_cons.mp h with h1 | h1
      · by_cases hc : isWsChar c = true
        · rw [if_pos hc] at h1
          exact h1
        · rw [if_neg hc] at h1
          subst h1
          rw [hw] at hc
          exact absurd rfl hc
      · exact ih h1

theorem noWsPair_collapseWs (l : List Char) : noWsPair (collapseWs l) := by
  induction l with
  | nil => exact List.chain'_nil
  | cons c cs ih =>
    unfold collapseWs
    by_cases hb : (isWsChar c && headSat isWsChar cs) = true
    · rw [if_pos hb]
      exact ih
    · rw [if_neg hb]
      rw [noWsPair, List.chain'_cons']
      refine ⟨?_, ih⟩
      intro y hy hcontra
      obtain ⟨hwc', hwy⟩ := hcontra
      have hwc : isWsChar c = true := by
        by_cases hc : isWsChar c = true
        · exact hc
        · rw [if_neg hc] at hwc'
          exact hwc'
      have hhead : headSat isWsChar (collapseWs cs) = true := by
        cases hcs : collapseWs cs with
        | nil =>
          rw [hcs] at hy
          cases hy
        | cons a t =>
          rw [hcs] at hy
          have hya : a = y := by simpa using hy
          simp only [headSat]
          rw [hya]
          exact hwy
      rw [headSat_ws_collapseWs] at hhead
      exact hb (by rw [hwc, hhead]; rfl)

theorem collapseWs_eq_self {l : List Char} (h1 : noWsPair l)
    (h2 : ∀ c ∈ l, isWsChar c = true → c = ' ') : collapseWs l = l := by
  induction l with
  | nil => rfl
  | cons c cs ih =>
    unfold collapseWs
    have hb : (isWsChar c && headSat isWsChar cs) = false := by
      by_cases hc : isWsChar c = true
      · cases hcs : cs with
        | nil => simp [headSat]
        | cons a t =>
          rw [noWsPair, hcs, List.chain'_cons] at h1
          have hna : isWsChar a = false := by
            by_cases ha : isWsChar a = true
            · exact absurd ⟨hc, ha⟩ h1.1
            · simpa using ha
          simp [headSat, hna]
      · simp [hc]
    rw [if_neg (by simp [hb])]
    have htl : collapseWs cs = cs :=
      ih (List.Chain'.tail h1) (fun d hd hw => h2 d (List.mem_cons_of_mem c hd) hw)
    rw [htl]
    congr 1
    by_cases hc : isWsChar c = true
    · rw [if_pos hc]
      exact (h2 c (List.mem_cons_self c cs) hc).symm
    · rw [if_neg hc]

theorem mem_pyStrip {d : Char} {l : List Char} (h : d ∈ pyStrip l) : d ∈ l := by
  unfold pyStrip at h
  rw [List.mem_reverse] at h
  have h1 := (List.dropWhile_suffix isWsChar).subset h
  rw [List.mem_reverse] at h1
  exact (List.dropWhile_suffix isWsChar).subset h1

theorem pyStrip_isInfix (l : List Char) : pyStrip l <:+: l :=
  ((dropTrailing_isPrefix isWsChar (l.dropWhile isWsChar)).isInfix).trans
    (List.dropWhile_suffix isWsChar).isInfix

theorem charLower_space : charLower ' ' = ' ' := by decide

theorem wordOrSpace_class (c : Char) :
    (isWordChar (wordOrSpace c) || isWsChar (wordOrSpace c)) = true := by
  unfold wordOrSpace
  by_cases h : (isWordChar c || isWsChar c) = true
  · rw [if_pos h]
    exact h
  · rw [if_neg h]
    rw [isWsChar_space]
    simp

theorem charLower_fix_wordOrSpace (c : Char) :
    charLower (wordOrSpace (charLower c)) = wordOrSpace (charLower c) := by
  unfold wordOrSpace
  by_cases h : (isWordChar (charLower c) || isWsChar (charLower c)) = true
  · rw [if_pos h]
    exact charLower_idem c
  · rw [if_neg h]
    exact charLower_space

/-- `normalize_text` is idempotent: its output is already lowercase,
word-or-space, collapsed and stripped. -/
theorem normalize_text_idem (s : String) :
    normalize_text (normalize_text s) = normalize_text s := by
  by_cases hs : s = ""
  · subst hs
    rfl
  · have hdata : (normalize_text s).data =
        pyStrip (collapseWs ((pyLower s.data).map wordOrSpace)) := by
      unfold normalize_text
      rw [if_neg hs]
    by_cases hn : normalize_text s = ""
    · rw [hn]
      rfl
    · have horigin : ∀ d ∈ (normalize_text s).data,
          d ∈ (pyLower s.data).map wordOrSpace ∨ d = ' ' := by
        intro d hd
        rw [hdata] at hd
        exact mem_collapseWs (mem_pyStrip hd)
      have hlower : pyLower (normalize_text s).data = (normalize_text s).data := by
        unfold pyLower
        conv_rhs => rw [← List.map_id (normalize_text s).data]
        apply List.map_congr_left
        intro d hd
        rcases horigin d hd with h1 | h1
        · obtain ⟨e, he, rfl⟩ := List.mem_map.mp h1
          obtain ⟨c, hc, rfl⟩ := List.mem_map.mp he
          exact charLower_fix_wordOrSpace c
        · rw [h1]
          exact charLower_space
      have hclass : ∀ d ∈ (normalize_text s).data,
          (isWordChar d || isWsChar d) = true := by
        intro d hd
        rcases horigin d hd with h1 | h1
        · obtain ⟨e, he, rfl⟩ := List.mem_map.mp h1
          exact wordOrSpace_class e
        · rw [h1, isWsChar_space]
          simp
      have hsub : (normalize_text s).data.map wordOrSpace = (normalize_text s).data := by
        conv_rhs => rw [← List.map_id (normalize_text s).data]
        apply List.map_congr_left
        intro d hd
        unfold wordOrSpace
        rw [if_pos (hclass d hd)]
        rfl
      have hcollapse : collapseWs (normalize_text s).data = (normalize_text s).data := by
        apply collapseWs_eq_self
        · have hchain : noWsPair (collapseWs ((pyLower s.data).map wordOrSpace)) :=
            noWsPair_collapseWs _
          exact List.Chain'.infix hchain (by rw [hdata]; exact pyStrip_isInfix _)
        · intro c hc hw
          rw [hdata] at hc
          exact ws_space_collapseWs (mem_pyStrip hc) hw
      have hstrip : pyStrip (normalize_text s).data = (normalize_text s).data := by
        rw [hdata]
        exact pyStrip_idem _
      generalize hgen : normalize_text s = n at hn hlower hsub hcollapse hstrip ⊢
      unfold normalize_text
      rw [if_neg hn, hlower, hsub, hcollapse, hstrip]

/-! ## Algebraic facts about the similarity engine (claim C5) -/

theorem cosineSimFn_comm (k1 k2 : Finset String) (v1 v2 : String → ℝ) :
    cosineSimFn k1 k2 v1 v2 = cosineSimFn k2 k1 v2 v1 := by
  unfold cosineSimFn
  rw [Finset.inter_comm]
  by_cases h0 : k2 ∩ k1 = ∅
  · rw [if_pos h0, if_pos h0]
  · rw [if_neg h0, if_neg h0]
    by_cases h1 : Real.sqrt (∑ w ∈ k1, v1 w * v1 w) = 0 ∨
        Real.sqrt (∑ w ∈ k2, v2 w * v2 w) = 0
    · rw [if_pos h1, if_pos (Or.symm h1)]
    · rw [if_neg h1, if_neg (fun hc => h1 (Or.symm hc)),
        mul_comm (Real.sqrt (∑ w ∈ k1, v1 w * v1 w))]
      congr 1
      exact Finset.sum_congr rfl (fun w _ => mul_comm _ _)

theorem titleCosine_comm (t1 t2 : String) : titleCosine t1 t2 = titleCosine t2 t1 := by
  unfold titleCosine
  by_cases h : tfWords t1 ≠ [] ∧ tfWords t2 ≠ []
  · rw [if_pos h, if_pos ⟨h.2, h.1⟩]
    exact cosineSimFn_comm _ _ _ _
  · rw [if_neg h, if_neg (fun hc => h ⟨hc.2, hc.1⟩)]

theorem tokenJaccard_comm (t1 t2 : String) : tokenJaccard t1 t2 = tokenJaccard t2 t1 := by
  unfold tokenJaccard
  by_cases h : tokenSet t1 ≠ ∅ ∧ tokenSet t2 ≠ ∅
  · rw [if_pos h, if_pos ⟨h.2, h.1⟩, Finset.inter_comm, Finset.union_comm]
  · rw [if_neg h, if_neg (fun hc => h ⟨hc.2, hc.1⟩)]

theorem trigramJaccard_comm (t1 t2 : String) :
    trigramJaccard t1 t2 = trigramJaccard t2 t1 := by
  unfold trigramJaccard
  by_cases h : trigrams t1 ≠ ∅ ∧ trigrams t2 ≠ ∅
  · rw [if_pos h, if_pos ⟨h.2, h.1⟩, Finset.inter_comm, Finset.union_comm]
  · rw [if_neg h, if_neg (fun hc => h ⟨hc.2, hc.1⟩)]

theorem lcsLen_comm_aux :
    ∀ (n : Nat) (l1 l2 : List String), l1.length + l2.length = n →
      lcsLen l1 l2 = lcsLen l2 l1 := by
  intro n
  induction n using Nat.strong_induction_on with
  | _ n ih =>
    intro l1 l2 hn
    cases l1 with
    | nil =>
      cases l2 with
      | nil => rfl
      | cons b bs => simp [lcsLen]
    | cons a as =>
      cases l2 with
      | nil => simp [lcsLen]
      | cons b bs =>
        simp only [lcsLen]
        by_cases hab : a = b
        · rw [if_pos hab, if_pos hab.symm,
            ih (as.length + bs.length)
              (by simp only [List.length_cons] at hn; omega) as bs rfl]
        · rw [if_neg hab, if_neg (fun h => hab h.symm),
            ih ((a :: as).length + bs.length)
              (by simp only [List.length_cons] at hn ⊢; omega) (a :: as) bs rfl,
            ih (as.length + (b :: bs).length)
              (by simp only [List.length_cons] at hn ⊢; omega) as (b :: bs) rfl,
            Nat.max_comm]

theorem lcsLen_comm (l1 l2 : List String) : lcsLen l1 l2 = lcsLen l2 l1 :=
  lcsLen_comm_aux (l1.length + l2.length) l1 l2 rfl

theorem lcsSim_comm (s1 s2 : String) : lcsSim s1 s2 = lcsSim s2 s1 := by
  unfold lcsSim
  by_cases h : pySplit s1.data = [] ∨ pySplit s2.data = []
  · rw [if_pos h, if_pos (Or.symm h)]
  · rw [if_neg h, if_neg (fun hc => h (Or.symm hc)), lcsLen_comm, Nat.min_comm]

theorem calculate_title_similarity_comm (a b : String) :
    calculate_title_similarity a b = calculate_title_similarity b a := by
  unfold calculate_title_similarity
  by_cases h0 : a = "" ∨ b = ""
  · rw [if_pos h0, if_pos (Or.symm h0)]
  · rw [if_neg h0, if_neg (fun hc => h0 (Or.symm hc))]
    by_cases h1 : normalize_text a = "" ∨ normalize_text b = ""
    · rw [if_pos h1, if_pos (Or.symm h1)]
    · rw [if_neg h1, if_neg (fun hc => h1 (Or.symm hc))]
      by_cases h2 : normalize_text a = normalize_text b
      · rw [if_pos h2, if_pos h2.symm]
      · rw [if_neg h2, if_neg (fun hc => h2 hc.symm),
          titleCosine_comm, tokenJaccard_comm, trigramJaccard_comm, lcsSim_comm]

theorem calculate_title_similarity_refl {s : String} (h : normalize_text s ≠ "") :
    calculate_title_similarity s s = 1 := by
  have hs : s ≠ "" := by
    intro hc
    subst hc
    exact h rfl
  unfold calculate_title_similarity
  rw [if_neg (by simp [hs]), if_neg (by simp [h]), if_pos rfl]

/-! ## Zero cases of the similarity (claim C5, part c) -/

theorem data_ne_nil_of_ne_empty {s : String} (h : s ≠ "") : s.data ≠ [] := by
  intro hc
  exact h (String.ext hc)

theorem normalize_text_strip (s : String) :
    pyStrip (normalize_text s).data = (normalize_text s).data := by
  by_cases hs : s = ""
  · subst hs
    rfl
  · have hdata : (normalize_text s).data =
        pyStrip (collapseWs ((pyLower s.data).map wordOrSpace)) := by
      unfold normalize_text
      rw [if_neg hs]
    rw [hdata]
    exact pyStrip_idem _

theorem normalize_text_collapse (s : String) :
    collapseWs (normalize_text s).data = (normalize_text s).data := by
  by_cases hs : s = ""
  · subst hs
    rfl
  · have hdata : (normalize_text s).data =
        pyStrip (collapseWs ((pyLower s.data).map wordOrSpace)) := by
      unfold normalize_text
      rw [if_neg hs]
    apply collapseWs_eq_self
    · exact List.Chain'.infix (noWsPair_collapseWs _)
        (by rw [hdata]; exact pyStrip_isInfix _)
    · intro c hc hw
      rw [hdata] at hc
      exact ws_space_collapseWs (mem_pyStrip hc) hw

theorem trigramList_ne_nil {l : List Char} (h : 3 ≤ l.length) :
    trigramList l ≠ [] := by
  rcases l with _ | ⟨a, _ | ⟨b, _ | ⟨c, r⟩⟩⟩ <;> simp at h ⊢
  · intro hc
    rw [trigramList] at hc
    cases hc

theorem trigrams_normalize_ne_empty {s : String} (h : normalize_text s ≠ "") :
    trigrams (normalize_text s) ≠ ∅ := by
  have hne : (normalize_text s).data ≠ [] := data_ne_nil_of_ne_empty h
  unfold trigrams
  rw [normalize_text_strip, normalize_text_collapse]
  by_cases hlen : (normalize_text s).data.length < 3
  · rw [if_pos hlen, if_neg hne]
    simp
  · rw [if_neg hlen]
    rw [Ne, List.toFinset_eq_empty_iff]
    exact trigramList_ne_nil (by omega)

theorem lcsLen_zero_aux :
    ∀ (n : Nat) (l1 l2 : List String), l1.length + l2.length = n →
      (∀ w ∈ l1, w ∉ l2) → lcsLen l1 l2 = 0 := by
  intro n
  induction n using Nat.strong_induction_on with
  | _ n ih =>
    intro l1 l2 hn hdisj
    cases l1 with
    | nil => simp [lcsLen]
    | cons a as =>
      cases l2 with
      | nil => simp [lcsLen]
      | cons b bs =>
        simp only [lcsLen]
        have hab : ¬ a = b := by
          intro hc
          exact hdisj a (List.mem_cons_self a as) (hc ▸ List.mem_cons_self b bs)
        rw [if_neg hab,
          ih ((a :: as).length + bs.length)
            (by simp only [List.length_cons] at hn ⊢; omega) (a :: as) bs rfl
            (fun w hw => fun hc => hdisj w hw (List.mem_cons_of_mem b hc)),
          ih (as.length + (b :: bs).length)
            (by simp only [List.length_cons] at hn ⊢; omega) as (b :: bs) rfl
            (fun w hw => hdisj w (List.mem_cons_of_mem a hw))]
        simp

theorem lcsSim_zero {a b : String}
    (hdisj : ∀ w ∈ pySplit a.data, w ∉ pySplit b.data) : lcsSim a b = 0 := by
  unfold lcsSim
  by_cases h : pySplit a.data = [] ∨ pySplit b.data = []
  · rw [if_pos h]
  · rw [if_neg h, lcsLen_zero_aux _ _ _ rfl hdisj]
    simp

theorem tokenJaccard_zero {a b : String}
    (hdisj : ∀ w ∈ pySplit a.data, w ∉ pySplit b.data) : tokenJaccard a b = 0 := by
  unfold tokenJaccard
  by_cases h : tokenSet a ≠ ∅ ∧ tokenSet b ≠ ∅
  · rw [if_pos h]
    have hint : tokenSet a ∩ tokenSet b = ∅ := by
      rw [Finset.eq_empty_iff_forall_not_mem]
      intro x hx
      rw [Finset.mem_inter] at hx
      unfold tokenSet at hx
      have hx1 := List.mem_of_mem_filter (List.mem_toFinset.mp hx.1)
      have hx2 := List.mem_of_mem_filter (List.mem_toFinset.mp hx.2)
      exact hdisj x hx1 hx2
    rw [hint]
    simp
  · rw [if_neg h]

theorem trigramJaccard_zero {a b : String}
    (hdisj : trigrams a ∩ trigrams b = ∅) : trigramJaccard a b = 0 := by
  unfold trigramJaccard
  by_cases h : trigrams a ≠ ∅ ∧ trigrams b ≠ ∅
  · rw [if_pos h, hdisj]
    simp
  · rw [if_neg h]

theorem tfWords_subset (s : String) :
    ∀ w ∈ tfWords (normalize_text s), w ∈ pySplit (normalize_text s).data := by
  intro w hw
  unfold tfWords at hw
  rw [normalize_text_idem] at hw
  exact List.mem_of_mem_filter hw

theorem titleCosine_zero {a b : String}
    (hdisj : ∀ w ∈ pySplit (normalize_text a).data,
      w ∉ pySplit (normalize_text b).data) :
    titleCosine (normalize_text a) (normalize_text b) = 0 := by
  unfold titleCosine
  by_cases h : tfWords (normalize_text a) ≠ [] ∧ tfWords (normalize_text b) ≠ []
  · rw [if_pos h]
    unfold cosineSimFn
    rw [if_pos]
    rw [Finset.eq_empty_iff_forall_not_mem]
    intro x hx
    rw [Finset.mem_inter, List.mem_toFinset, List.mem_toFinset] at hx
    exact hdisj x (tfWords_subset a x hx.1) (tfWords_subset b x hx.2)
  · rw [if_neg h]

theorem calculate_title_similarity_zero (a b : String)
    (h : a = "" ∨ b = "" ∨
      ((∀ w ∈ pySplit (normalize_text a).data, w ∉ pySplit (normalize_text b).data) ∧
        trigrams (normalize_text a) ∩ trigrams (normalize_text b) = ∅)) :
    calculate_title_similarity a b = 0 := by
  rcases h with h | h | ⟨hw, ht⟩
  · unfold calculate_title_similarity
    rw [if_pos (Or.inl h)]
  · unfold calculate_title_similarity
    rw [if_pos (Or.inr h)]
  · unfold calculate_title_similarity
    by_cases h0 : a = "" ∨ b = ""
    · rw [if_pos h0]
    · rw [if_neg h0]
      by_cases h1 : normalize_text a = "" ∨ normalize_text b = ""
      · rw [if_pos h1]
      · rw [if_neg h1]
        have h2 : ¬ normalize_text a = normalize_text b := by
          intro h2
          apply trigrams_normalize_ne_empty
            (show normalize_text a ≠ "" from fun hc => h1 (Or.inl hc))
          rw [← Finset.inter_self (trigrams (normalize_text a))]
          nth_rewrite 2 [h2]
          exact ht
        rw [if_neg h2, titleCosine_zero hw, tokenJaccard_zero hw,
          trigramJaccard_zero ht, lcsSim_zero hw]
        norm_num

/-! ## Data model (`pdf_matcher.py` lines 36-95, 101-117)

The `element` handle of `ArticleInfo` is replaced by the article's stable
`index` into the manifest's article list; the XML writes keyed on it are
modelled separately on the element tree.  The free-form `details` and
`pdf_metadata` dictionaries of `MatchResult` carry no decision-relevant
data and are omitted. -/

/-- `MatchMethod` (lines 36-45). -/
inductive MatchMethod where
  | ednExact
  | doiExact
  | doiPart
  | titleHigh
  | titleAuthors
  | pagesTitle
  | fallback
  | unmatched
deriving DecidableEq, Inhabited

/-- `PDFEntry` (lines 48-52): extracted disk path and original archive path. -/
structure PDFEntry where
  path : String
  arcname : String
deriving DecidableEq, Inhabited

/-- `ArticleInfo` (lines 55-68). -/
structure ArticleInfo where
  index : Nat
  article_id : Option String
  num : Option String
  pages : Option (Nat × Nat)
  title_rus : Option String
  title_eng : Option String
  authors_rus : List String
  authors_eng : List String
  doi : Option String
  edn : Option String
deriving DecidableEq, Inhabited

/-- `PDFMetadata` (lines 71-80); its extraction is I/O (PyPDF2) and
enters the model as a mapping from disk path to metadata, the way
`process_zip` builds `pdf_metadata` before the phases run. -/
structure PDFMetadata where
  title : Option String := none
  authors : List String := []
  doi : Option String := none
  doi_candidates : List String := []
  edn : Option String := none
deriving DecidableEq, Inhabited

/-- `MatchResult` (lines 83-95). -/
structure MatchResult where
  article_index : Nat
  article_id : Option String
  article_title : String
  pdf_filename : Option String
  score : ℝ
  method : MatchMethod
  doi : Option String
  confidence : String
deriving Inhabited

/-- The four component scores of `_calculate_combined_score` (lines
1196-1201). -/
structure Components where
  title : ℝ
  authors : ℝ
  pages : ℝ
  filename : ℝ
deriving Inhabited

/-- The matcher's configurable cutoffs (instance attributes, lines
101-106 and 117). -/
structure Thresholds where
  high : ℝ
  medium : ℝ
  low : ℝ
  margin : ℝ
  adaptive : Bool

/-- The class defaults: `MIN_SCORE_HIGH_CONFIDENCE = 0.75`,
`MIN_SCORE_MEDIUM_CONFIDENCE = 0.45`, `MIN_SCORE_LOW_CONFIDENCE = 0.25`,
`MARGIN_SCORE_GAP = 0.15`, `adaptive_thresholds=True`. -/
noncomputable def defaultThresholds : Thresholds :=
  { high := 0.75, medium := 0.45, low := 0.25, margin := 0.15, adaptive := true }

/-- The weights of `WEIGHTS` (lines 109-115) that enter the combined
score (the `doi`/`edn` entries are never read by it). -/
noncomputable def wTitle : ℝ := 0.60

noncomputable def wAuthors : ℝ := 0.30

noncomputable def wPages : ℝ := 0.05

noncomputable def wFilename : ℝ := 0.05

/-- Python `x or y` on optional strings with a string fallback: `None`
and `""` are falsy. -/
def pyOrStr (o : Option String) (alt : String) : String :=
  match o with
  | some s => if s = "" then alt else s
  | none => alt

/-- The `article.title_rus or article.title_eng or "Без названия"`
display title used by every `MatchResult` construction. -/
def articleTitleOf (a : ArticleInfo) : String :=
  pyOrStr a.title_rus (pyOrStr a.title_eng "Без названия")

/-- `Path(arcname).name`: the segment after the last `/` (zip archive
names use forward slashes, and file members never end in one). -/
def basename (s : String) : String :=
  ⟨(s.data.reverse.takeWhile (fun c => !decide (c = '/'))).reverse⟩

/-- The reversed part of `l` before its last `.`, empty when no split
applies. -/
def stemPre (l : List Char) : List Char :=
  (l.reverse.dropWhile (fun d => !(d = '.'))).drop 1

/-- `Path(s).stem`: the basename without its final suffix; pathlib takes
a suffix only when the last dot is neither the first nor the last
character of the name. -/
def stemOf (s : String) : String :=
  if headSat (fun c => decide (c = '.')) (basename s).data.reverse then basename s
  else if stemPre (basename s).data = [] then basename s
  else ⟨(stemPre (basename s).data).reverse⟩

/-- Python `max` over a list as the source calls it (only on nonempty
lists; `0` on `[]` is never exercised). -/
noncomputable def listMax : List ℝ → ℝ
  | [] => 0
  | x :: xs => xs.foldl max x

/-- Maximal `\w+` runs of a character list (accumulator holds the
current run reversed). -/
def wordRunsAux : List Char → List Char → List (List Char)
  | [], acc => if acc = [] then [] else [acc.reverse]
  | c :: cs, acc =>
      if isWordChar c then wordRunsAux cs (c :: acc)
      else (if acc = [] then [] else [acc.reverse]) ++ wordRunsAux cs []

/-- A lowercase Latin or Cyrillic letter (the `[а-яёa-z]` class). -/
def isLowerWordLetter (c : Char) : Bool :=
  (97 ≤ c.toNat && c.toNat ≤ 122) || (0x430 ≤ c.toNat && c.toNat ≤ 0x44F) ||
  c.toNat = 0x451

/-- `set(re.findall(r'\b[а-яёa-z]{4,}\b', s))` on an already lowercased
string: maximal word-character runs kept when at least 4 long and made
of lowercase letters only (a run containing a digit or underscore has no
word boundary inside it, so no sub-run of it can match). -/
def keywordSet (l : List Char) : Finset String :=
  (((wordRunsAux l []).filter
    (fun r => 4 ≤ r.length && r.all isLowerWordLetter)).map
      (fun r => (⟨r⟩ : String))).toFinset

/-! ## Combined score (`_calculate_combined_score`, lines 1184-1258) -/

/-- Component 1 (lines 1203-1212): best title similarity of the PDF
title against the truthy article titles; `0` when the PDF has no truthy
title or the article none. -/
noncomputable def titleComponent (meta : PDFMetadata) (art : ArticleInfo) : ℝ :=
  match meta.title with
  | none => 0
  | some mt =>
    if mt = "" then 0 else
    if pyOrStr art.title_rus "" ≠ "" then
      if pyOrStr art.title_eng "" ≠ "" then
        max (calculate_title_similarity mt (pyOrStr art.title_rus ""))
            (calculate_title_similarity mt (pyOrStr art.title_eng ""))
      else calculate_title_similarity mt (pyOrStr art.title_rus "")
    else if pyOrStr art.title_eng "" ≠ "" then
      calculate_title_similarity mt (pyOrStr art.title_eng "")
    else 0

/-- Component 2 (lines 1214-1223): best author-list similarity against
the truthy author lists. -/
noncomputable def authorsComponent (meta : PDFMetadata) (art : ArticleInfo) : ℝ :=
  if meta.authors = [] then 0 else
  if art.authors_rus ≠ [] then
    if art.authors_eng ≠ [] then
      max (compare_authors meta.authors art.authors_rus)
          (compare_authors meta.authors art.authors_eng)
    else compare_authors meta.authors art.authors_rus
  else if art.authors_eng ≠ [] then
    compare_authors meta.authors art.authors_eng
  else 0

/-- Component 3 (lines 1225-1234).  The "full" check looks for the
literal text `start[-–—]end` — an f-string interpolating into what was
meant as a regex — inside the lowercased file name; the partial check
looks for the bare start or end number in the raw name. -/
noncomputable def pagesComponent (art : ArticleInfo) (pdfName : String) : ℝ :=
  match art.pages with
  | none => 0
  | some (s, e) =>
      if ((toString s).data ++ "[-–—]".data ++ (toString e).data) <:+:
          pyLower pdfName.data then 1
      else if (toString s).data <:+: pdfName.data ∨
          (toString e).data <:+: pdfName.data then (0.5 : ℝ)
      else 0

/-- Component 4 (lines 1236-1248): Jaccard overlap of the ≥4-letter
lowercase keywords of the article title and of the file stem. -/
noncomputable def filenameComponent (art : ArticleInfo) (pdfName : String) : ℝ :=
  if pyOrStr art.title_rus (pyOrStr art.title_eng "") = "" then 0 else
  if keywordSet (pyLower (pyOrStr art.title_rus (pyOrStr art.title_eng "")).data) ≠ ∅ ∧
      keywordSet (pyLower (stemOf pdfName).data) ≠ ∅ then
    if 0 < ((keywordSet (pyLower (pyOrStr art.title_rus (pyOrStr art.title_eng "")).data) ∪
        keywordSet (pyLower (stemOf pdfName).data)).card : ℕ) then
      ((keywordSet (pyLower (pyOrStr art.title_rus (pyOrStr art.title_eng "")).data) ∩
          keywordSet (pyLower (stemOf pdfName).data)).card : ℝ) /
        ((keywordSet (pyLower (pyOrStr art.title_rus (pyOrStr art.title_eng "")).data) ∪
          keywordSet (pyLower (stemOf pdfName).data)).card : ℝ)
    else 0
  else 0

/-- `PDFMatcher._calculate_combined_score` (lines 1184-1258): the fixed
weighted sum of the four components — each weight multiplies its own
component only, whether or not the component's signal was available. -/
noncomputable def calculate_combined_score (meta : PDFMetadata) (art : ArticleInfo)
    (pdfName : String) : ℝ × Components :=
  (wTitle * titleComponent meta art + wAuthors * authorsComponent meta art +
    wPages * pagesComponent art pdfName + wFilename * filenameComponent art pdfName,
   ⟨titleComponent meta art, authorsComponent meta art,
    pagesComponent art pdfName, filenameComponent art pdfName⟩)

/-- `PDFMatcher._determine_match_method` (lines 1693-1707); the source
also receives the total score but never reads it. -/
noncomputable def determine_match_method (c : Components) : MatchMethod :=
  if 0.85 < c.title then .titleHigh
  else if 0.5 < c.title ∧ 0.5 < c.authors then .titleAuthors
  else if 0.8 < c.pages ∧ 0.4 < c.title then .pagesTitle
  else .fallback

/-! ## Phase bookkeeping and the identifier phases (lines 1260-1479) -/

/-- The running `(matches, matched_articles, matched_pdfs)` triple of a
phase; the Python sets are lists here, only membership is used. -/
structure MatchState where
  results : List MatchResult
  mArts : List Nat
  mPdfs : List String

/-- First-occurrence deduplication, threading the elements already seen
(the key order of a Python dict built by `setdefault` insertions). -/
def dedupFirstAux {α : Type} [DecidableEq α] : List α → List α → List α
  | [], _ => []
  | x :: xs, seen =>
      if x ∈ seen then dedupFirstAux xs seen
      else x :: dedupFirstAux xs (x :: seen)

def dedupFirst {α : Type} [DecidableEq α] (l : List α) : List α :=
  dedupFirstAux l []

/-- Append one assignment to the state (the shared tail of every
successful identifier branch). -/
noncomputable def idAssign (st : MatchState) (pe : PDFEntry) (a : ArticleInfo)
    (score : ℝ) (method : MatchMethod) (d : Option String) : MatchState :=
  { results := st.results ++ [{
      article_index := a.index, article_id := a.article_id,
      article_title := articleTitleOf a,
      pdf_filename := some (basename pe.arcname),
      score := score, method := method, doi := d, confidence := "high" }],
    mArts := st.mArts ++ [a.index], mPdfs := st.mPdfs ++ [pe.path] }

/-- `edn_index[e]` (lines 1277-1281): the articles whose truthy EDN is
`e`, in manifest order; `e` is a key exactly when the list is nonempty
(the index only holds truthy EDNs, and the phases look keys up with
truthy probes only). -/
def ednGroup (arts : List ArticleInfo) (e : String) : List ArticleInfo :=
  arts.filter (fun a => a.edn = some e)

/-- One PDF step of Phase 0 (lines 1287-1322). -/
noncomputable def ednStep (arts : List ArticleInfo)
    (metaOf : String → PDFMetadata) (st : MatchState) (pe : PDFEntry) : MatchState :=
  match (metaOf pe.path).edn with
  | none => st
  | some e =>
    if e = "" then st else
    match ednGroup arts e with
    | [a] =>
        if a.index ∉ st.mArts ∧ pe.path ∉ st.mPdfs then
          idAssign st pe a 1 .ednExact a.doi
        else st
    | _ => st

/-- Phase 0 — `PDFMatcher._match_by_edn` (lines 1260-1326). -/
noncomputable def match_by_edn (pdf_entries : List PDFEntry)
    (arts : List ArticleInfo) (metaOf : String → PDFMetadata) : MatchState :=
  pdf_entries.foldl (ednStep arts metaOf) ⟨[], [], []⟩

/-- `doi_index` keys (lines 1347-1350): the truthy DOIs of the articles
in first-insertion order. -/
def doiKeys (arts : List ArticleInfo) : List String :=
  dedupFirst (arts.filterMap (fun a =>
    match a.doi with
    | some d => if d = "" then none else some d
    | none => none))

/-- `doi_index[d]` for a truthy key `d`: the articles carrying that DOI,
in manifest order. -/
def doiGroup (arts : List ArticleInfo) (d : String) : List ArticleInfo :=
  arts.filter (fun a => a.doi = some d)

/-- The partial-match condition of lines 1403-1405 (and mirrored at
1442-1443): `long` strictly extends `short` and the extension is at most
half of `short`'s length — `len(long) - len(short) <= len(short) * 0.5`
is exact in floats and reads `2*(len(long)-len(short)) ≤ len(short)`
over ℕ. -/
def doiPrefixRel (short long : String) : Prop :=
  listStarts short.data long.data = true ∧ short.length < long.length ∧
    2 * (long.length - short.length) ≤ short.length

instance (short long : String) : Decidable (doiPrefixRel short long) :=
  inferInstanceAs (Decidable (_ ∧ _ ∧ _))

/-- Does the key's group hold exactly one article, still unassigned?
(The `len(articles) == 1` and `art.index not in matched_articles` tests
of the partial loops.) -/
def singleFreeGroup (arts : List ArticleInfo) (mA : List Nat) (k : String) : Bool :=
  match doiGroup arts k with
  | [a] => decide (a.index ∉ mA)
  | _ => false

/-- One PDF step of Phase 1 (lines 1356-1475): exact key hit, else the
forward partial scan (PDF DOI a prefix of a manifest DOI), else the
reverse partial scan; each partial loop breaks at its first assignable
key and skips non-assignable ones. -/
noncomputable def doiStep (arts : List ArticleInfo)
    (metaOf : String → PDFMetadata) (st : MatchState) (pe : PDFEntry) : MatchState :=
  if pe.path ∈ st.mPdfs then st else
  match (metaOf pe.path).doi with
  | none => st
  | some d =>
    if d = "" then st else
    if doiGroup arts d ≠ [] then
      match doiGroup arts d with
      | [a] =>
          if a.index ∉ st.mArts ∧ pe.path ∉ st.mPdfs then
            idAssign st pe a 1 .doiExact (some d)
          else st
      | _ => st
    else
      match (doiKeys arts).find? (fun k =>
          decide (doiPrefixRel d k) && singleFreeGroup arts st.mArts k &&
          decide (pe.path ∉ st.mPdfs)) with
      | some k =>
          match doiGroup arts k with
          | [a] => idAssign st pe a 0.95 .doiPart (some k)
          | _ => st
      | none =>
        match (doiKeys arts).find? (fun k =>
            decide (doiPrefixRel k d) && singleFreeGroup arts st.mArts k &&
            decide (pe.path ∉ st.mPdfs)) with
        | some k =>
            match doiGroup arts k with
            | [a] => idAssign st pe a 0.95 .doiPart (some d)
            | _ => st
        | none => st

/-- Phase 1 — `PDFMatcher._match_by_doi` (lines 1328-1479).  The source
RESETS the two matched sets it receives (`matched_articles = set()` and
`matched_pdfs = set()`, lines 1343-1344), so the arguments — Phase 0's
assignments — are discarded; the function then returns its own sets,
which replace the caller's (line 1790). -/
noncomputable def match_by_doi (pdf_entries : List PDFEntry)
    (arts : List ArticleInfo) (metaOf : String → PDFMetadata)
    (_matched_articles : List Nat) (_matched_pdfs : List String) : MatchState :=
  pdf_entries.foldl (doiStep arts metaOf) ⟨[], [], []⟩

/-! ## Phase 2 — fallback (`_match_fallback`, lines 1481-1621, and
`_adjust_thresholds`, lines 1623-1648) -/

/-- Stable descending insertion by a real-valued key: an element sinks
past strictly larger keys only, so ties keep generation order — the
behaviour of Python's stable `sort(key=..., reverse=True)`. -/
noncomputable def insertDescBy {α : Type} (key : α → ℝ) (x : α) :
    List α → List α
  | [] => [x]
  | y :: ys => if key x < key y then y :: insertDescBy key x ys else x :: y :: ys

noncomputable def sortDescBy {α : Type} (key : α → ℝ) : List α → List α
  | [] => []
  | x :: xs => insertDescBy key x (sortDescBy key xs)

/-- `PDFMatcher._adjust_thresholds` (lines 1623-1648):
percentile-driven update of the high/medium cutoffs, each changed only
when the bounded percentile value moves it by more than 0.05.  The
`int(n * 0.25)` index arithmetic is exact in floats and is ℕ division
here; `new_low` is computed by the source but never stored. -/
noncomputable def adjust_thresholds (scores : List ℝ) (cfg : Thresholds) : Thresholds :=
  if scores = [] then cfg else
  let ss := sortDescBy id scores
  let n := ss.length
  let p75 := if 3 < n then ss.getD (n / 4) 0 else ss.getD 0 0
  let p50 := if 1 < n then ss.getD (n / 2) 0 else ss.getD 0 0
  let newHigh := max 0.65 (min 0.85 p75)
  let newMedium := max 0.35 (min 0.65 p50)
  { cfg with
    high := if 0.05 < |newHigh - cfg.high| then newHigh else cfg.high,
    medium := if 0.05 < |newMedium - cfg.medium| then newMedium else cfg.medium }

/-- A scored article-PDF pair (the tuples of `scored_pairs`, line
1509). -/
structure ScoredPair where
  score : ℝ
  art : ArticleInfo
  pe : PDFEntry
  comps : Components
deriving Inhabited

/-- The double loop of lines 1511-1520: article-major generation order
over the remaining candidates, keeping pairs with a positive score. -/
noncomputable def scoredPairs (remArts : List ArticleInfo) (remPdfs : List PDFEntry)
    (metaOf : String → PDFMetadata) : List ScoredPair :=
  ((remArts.map (fun a => remPdfs.map (fun pe =>
    (⟨(calculate_combined_score (metaOf pe.path) a (basename pe.arcname)).1, a, pe,
      (calculate_combined_score (metaOf pe.path) a (basename pe.arcname)).2⟩ :
      ScoredPair)))).flatten).filter (fun q => decide (0 < q.score))

/-- `by_article[i]` (lines 1534-1537): the pairs of article `i`, in
sorted-pair order. -/
noncomputable def candsFor (sorted : List ScoredPair) (i : Nat) : List ScoredPair :=
  sorted.filter (fun q => q.art.index = i)

/-- The margin rule of lines 1539-1548: at least two candidates, and the
top-two scores of the re-sorted candidate list differ by less than the
configured gap. -/
noncomputable def isAmbiguous (sorted : List ScoredPair) (margin : ℝ) (i : Nat) : Prop :=
  2 ≤ (candsFor sorted i).length ∧
    ((sortDescBy (fun q => q.score) (candsFor sorted i)).getD 0 default).score -
      ((sortDescBy (fun q => q.score) (candsFor sorted i)).getD 1 default).score < margin

noncomputable instance (sorted : List ScoredPair) (margin : ℝ) (i : Nat) :
    Decidable (isAmbiguous sorted margin i) :=
  inferInstanceAs (Decidable (_ ∧ _))

/-- Ascending insertion sort on ℕ (stable; used where the source
iterates a Python set of small article indices, which enumerates
ascending). -/
def insertAscNat (x : Nat) : List Nat → List Nat
  | [] => [x]
  | y :: ys => if y < x then y :: insertAscNat x ys else x :: y :: ys

def sortAscNat : List Nat → List Nat
  | [] => []
  | x :: xs => insertAscNat x (sortAscNat xs)

/-- `ambiguous_articles` (lines 1539-1548) as the list Level 3 iterates:
the ambiguous article indices in ascending order (the Python set of
small ints enumerates ascending). -/
noncomputable def ambiguousList (sorted : List ScoredPair) (margin : ℝ) : List Nat :=
  (sortAscNat (dedupFirst (sorted.map (fun q => q.art.index)))).filter
    (fun i => decide (isAmbiguous sorted margin i))

/-- The pass-local state of the greedy levels: the fallback's result
list plus `local_matched_articles` / `local_matched_pdfs`. -/
structure FallbackState where
  results : List MatchResult
  localArts : List Nat
  localPdfs : List String

/-- `_assign_match` (lines 1650-1687) seen from inside the fallback: one
result appended, both local sets extended (the caller-level sets grow
identically and are rebuilt by `match_fallback` from these). -/
noncomputable def fallbackAssign (st : FallbackState) (a : ArticleInfo) (pe : PDFEntry)
    (score : ℝ) (comps : Components) (confidence : String) : FallbackState :=
  { results := st.results ++ [{
      article_index := a.index, article_id := a.article_id,
      article_title := articleTitleOf a,
      pdf_filename := some (basename pe.arcname),
      score := score, method := determine_match_method comps, doi := a.doi,
      confidence := confidence }],
    localArts := st.localArts ++ [a.index],
    localPdfs := st.localPdfs ++ [pe.path] }

/-- Level 1 (lines 1560-1576): unambiguous pairs at or above the high
cutoff. -/
noncomputable def level1Step (sorted : List ScoredPair) (cfg : Thresholds)
    (st : FallbackState) (q : ScoredPair) : FallbackState :=
  if q.art.index ∈ st.localArts ∨ q.pe.path ∈ st.localPdfs then st
  else if isAmbiguous sorted cfg.margin q.art.index then st
  else if cfg.high ≤ q.score then fallbackAssign st q.art q.pe q.score q.comps "high"
  else st

/-- Level 2 (lines 1578-1594): unambiguous pairs in the medium band. -/
noncomputable def level2Step (sorted : List ScoredPair) (cfg : Thresholds)
    (st : FallbackState) (q : ScoredPair) : FallbackState :=
  if q.art.index ∈ st.localArts ∨ q.pe.path ∈ st.localPdfs then st
  else if isAmbiguous sorted cfg.margin q.art.index then st
  else if cfg.medium ≤ q.score ∧ q.score < cfg.high then
    fallbackAssign st q.art q.pe q.score q.comps "medium"
  else st

/-- Level 3 (lines 1596-1617): an ambiguous article is assigned its
unique still-available candidate when that one reaches the low cutoff
(`next(a for a ...)` runs over the full article list). -/
noncomputable def level3Step (arts : List ArticleInfo) (sorted : List ScoredPair)
    (cfg : Thresholds) (st : FallbackState) (i : Nat) : FallbackState :=
  if i ∈ st.localArts then st
  else
    match (candsFor sorted i).filter (fun q => decide (q.pe.path ∉ st.localPdfs)) with
    | [q] =>
        match arts.find? (fun a => a.index = i) with
        | some a =>
            if cfg.low ≤ q.score then fallbackAssign st a q.pe q.score q.comps "low"
            else st
        | none => st
    | _ => st

/-- Phase 2 — `PDFMatcher._match_fallback` (lines 1481-1621), returning
the new results together with the caller-level matched sets extended by
the pass-local assignments (the side effect of `_assign_match` on the
outer sets). -/
noncomputable def match_fallback (pdf_entries : List PDFEntry) (arts : List ArticleInfo)
    (metaOf : String → PDFMetadata) (cfg : Thresholds)
    (mArts : List Nat) (mPdfs : List String) :
    List MatchResult × List Nat × List String :=
  let remArts := arts.filter (fun a => decide (a.index ∉ mArts))
  let remPdfs := pdf_entries.filter (fun pe => decide (pe.path ∉ mPdfs))
  if remArts = [] ∨ remPdfs = [] then ([], mArts, mPdfs) else
  if (scoredPairs remArts remPdfs metaOf).isEmpty then ([], mArts, mPdfs) else
  let sorted := sortDescBy (fun q => q.score) (scoredPairs remArts remPdfs metaOf)
  let cfg1 := if cfg.adaptive then adjust_thresholds (sorted.map (fun q => q.score)) cfg
    else cfg
  let st1 := sorted.foldl (level1Step sorted cfg1) ⟨[], [], []⟩
  let st2 := sorted.foldl (level2Step sorted cfg1) st1
  let st3 := (ambiguousList sorted cfg1.margin).foldl (level3Step arts sorted cfg1) st2
  (st3.results, mArts ++ st3.localArts, mPdfs ++ st3.localPdfs)

/-- Ascending stable insertion by article index (the final
`all_matches.sort(key=lambda x: x.article_index)`, line 1824). -/
def insertAscIdx (x : MatchResult) : List MatchResult → List MatchResult
  | [] => [x]
  | y :: ys => if y.article_index < x.article_index then y :: insertAscIdx x ys
      else x :: y :: ys

def sortAscIdx : List MatchResult → List MatchResult
  | [] => []
  | x :: xs => insertAscIdx x (sortAscIdx xs)

/-- The three phases of `process_zip` (lines 1784-1799): Phase 0, Phase
1 — whose returned sets REPLACE Phase 0's (line 1790) — and Phase 2 over
those sets.  Returns the assigned results in generation order together
with the post-fallback `matched_articles` set. -/
noncomputable def phaseResults (arts : List ArticleInfo) (pdf_entries : List PDFEntry)
    (metaOf : String → PDFMetadata) (cfg : Thresholds) : List MatchResult × List Nat :=
  let st0 := match_by_edn pdf_entries arts metaOf
  let st1 := match_by_doi pdf_entries arts metaOf st0.mArts st0.mPdfs
  let fb := match_fallback pdf_entries arts metaOf cfg st1.mArts st1.mPdfs
  (st0.results ++ st1.results ++ fb.1, fb.2.1)

/-- The matching portion of `process_zip` (lines 1784-1824): the three
phases, the unmatched-article records driven by the post-fallback
`matched_articles` set (lines 1804-1819), and the stable sort by article
index (line 1824). -/
noncomputable def runMatches (arts : List ArticleInfo) (pdf_entries : List PDFEntry)
    (metaOf : String → PDFMetadata) (cfg : Thresholds) : List MatchResult :=
  sortAscIdx ((phaseResults arts pdf_entries metaOf cfg).1 ++
    (arts.filter (fun a =>
      decide (a.index ∉ (phaseResults arts pdf_entries metaOf cfg).2))).map (fun a =>
      ({ article_index := a.index, article_id := a.article_id,
         article_title := articleTitleOf a, pdf_filename := none,
         score := 0, method := .unmatched, doi := a.doi,
         confidence := "none" } : MatchResult)))

/-! ## The manifest element tree

An lxml element is a tag, its attributes, its text, and its child
elements, in document order.  Tail text is not modelled: the manifests
carry their data in element text only, and no code under verification
reads `.tail`. -/

inductive Elem where
  | mk (tag : String) (attrs : List (String × String)) (text : Option String)
      (children : List Elem)

def Elem.tag : Elem → String
  | .mk t _ _ _ => t

def Elem.attrs : Elem → List (String × String)
  | .mk _ a _ _ => a

def Elem.text : Elem → Option String
  | .mk _ _ x _ => x

def Elem.children : Elem → List Elem
  | .mk _ _ _ c => c

/-- `e.get(k)`: the first attribute named `k`. -/
def Elem.getAttr (e : Elem) (k : String) : Option String :=
  (e.attrs.find? (fun p => decide (p.1 = k))).map Prod.snd

mutual

/-- The proper descendants of an element in document (pre-)order — the
nodes `findall(".//…")` searches. -/
def descendants : Elem → List Elem
  | .mk _ _ _ cs => descList cs

/-- Pre-order listing of the elements of a forest with their
descendants. -/
def descList : List Elem → List Elem
  | [] => []
  | c :: rest => (c :: descendants c) ++ descList rest

end

/-- `findall(".//t1/t2")`: the `t2` children of the `t1` descendants, in
document order. -/
def findPath2 (e : Elem) (t1 t2 : String) : List Elem :=
  ((descendants e).filter (fun c => decide (c.tag = t1))).flatMap
    (fun c => c.children.filter (fun x => decide (x.tag = t2)))

/-- `(fe.get("desc") or "").strip().lower() == "pdf"` (lines 1151 and
1171). -/
def isPdfDesc (fe : Elem) : Bool :=
  decide ((⟨pyLower (pyStrip (pyOrStr (fe.getAttr "desc") "").data)⟩ : String) = "pdf")

/-- The fresh `<file desc="PDF">pdf_filename</file>` element of lines
1176-1178. -/
def mkPdfFileElem (fname : String) : Elem :=
  .mk "file" [("desc", "PDF")] (some fname) []

/-- Set the text of the first `<file desc="PDF">` child (the
replace loop of lines 1170-1173). -/
def replacePdfText (fname : String) : List Elem → List Elem
  | [] => []
  | fe :: rest =>
      if decide (fe.tag = "file") && isPdfDesc fe then
        (match fe with | .mk t a _ c => .mk t a (some fname) c) :: rest
      else fe :: replacePdfText fname rest

/-- The update of the `<files>` element by
`set_pdf_file_in_article`: replace the text of the first PDF `<file>`,
else append a new one. -/
def setPdfInFiles (files : Elem) (fname : String) : Elem :=
  match files with
  | .mk t a x cs =>
      if (cs.find? (fun fe => decide (fe.tag = "file") && isPdfDesc fe)).isSome then
        .mk t a x (replacePdfText fname cs)
      else .mk t a x (cs ++ [mkPdfFileElem fname])

/-- Apply `setPdfInFiles` to the first `<files>` child (`find("./files")`
returns the first). -/
def updateFirstFiles (fname : String) : List Elem → List Elem
  | [] => []
  | c :: rest =>
      if decide (c.tag = "files") then setPdfInFiles c fname :: rest
      else c :: updateFirstFiles fname rest

/-- `PDFMatcher.set_pdf_file_in_article` (lines 1163-1178) as a pure
transform of the article element. -/
def set_pdf_file_in_article (article : Elem) (fname : String) : Elem :=
  match article with
  | .mk t a x cs =>
      if (cs.find? (fun c => decide (c.tag = "files"))).isSome then
        .mk t a x (updateFirstFiles fname cs)
      else .mk t a x (cs ++ [.mk "files" [] none [mkPdfFileElem fname]])

/-- Drop every PDF `<file>` child (the remove loop of lines
1149-1156). -/
def removePdfFiles (files : Elem) : Elem :=
  match files with
  | .mk t a x cs => .mk t a x (cs.filter (fun fe => !(decide (fe.tag = "file") && isPdfDesc fe)))

/-- The per-article body of `cleanup_pdf_files_in_articles` (lines
1144-1159) on the article's child list: clean the first `<files>` child
and drop it if it ends up with no children (`len(files) == 0`). -/
def cleanupChildren : List Elem → List Elem
  | [] => []
  | c :: rest =>
      if decide (c.tag = "files") then
        if (removePdfFiles c).children.isEmpty then rest
        else removePdfFiles c :: rest
      else c :: cleanupChildren rest

def cleanupArticle (article : Elem) : Elem :=
  match article with
  | .mk t a x cs => .mk t a x (cleanupChildren cs)

/-- How many PDF `<file>` entries an article carries, over all its
`<files>` children. -/
def pdfFileCount (article : Elem) : Nat :=
  (((article.children.filter (fun c => decide (c.tag = "files"))).map
    (fun f => (f.children.filter
      (fun fe => decide (fe.tag = "file") && isPdfDesc fe)).length)).sum)

/-! ## Reading an article (`get_article_info`, lines 952-1013, and
`parse_article_pages`, lines 173-206) -/

/-- ASCII digit (`\d` as the manifests use it). -/
def isDigitChar (c : Char) : Bool := 48 ≤ c.toNat && c.toNat ≤ 57

/-- The integer value of a digit run (`int` of a decimal literal). -/
def numParse (l : List Char) : Nat :=
  l.foldl (fun n c => 10 * n + (c.toNat - 48)) 0

/-- After one of the page-prefix alternatives matched: consume the
optional `.` and then any whitespace (`\.?\s*`). -/
def afterPageTag (m : List Char) : List Char :=
  match m with
  | c :: rest => if c.toNat = 46 then rest.dropWhile isWsChar
      else (c :: rest).dropWhile isWsChar
  | [] => []

/-- `re.sub(r'^(стр|с|page|p|pages)\.?\s*', '', s)` on a lowercased
string: the leftmost-first alternation of the source, one substitution
at the start. -/
def stripPageTag (l : List Char) : List Char :=
  if listStarts "стр".data l then afterPageTag (l.drop 3)
  else if listStarts "с".data l then afterPageTag (l.drop 1)
  else if listStarts "page".data l then afterPageTag (l.drop 4)
  else if listStarts "p".data l then afterPageTag (l.drop 1)
  else if listStarts "pages".data l then afterPageTag (l.drop 5)
  else l

/-- Consume `\s*[-–—]\s*` (codes 45, 0x2013, 0x2014). -/
def sepDash (l : List Char) : Option (List Char) :=
  match l.dropWhile isWsChar with
  | c :: rest =>
      if c.toNat = 45 ∨ c.toNat = 0x2013 ∨ c.toNat = 0x2014 then
        some (rest.dropWhile isWsChar)
      else none
  | [] => none

/-- Consume `\s*\.\.\s*`. -/
def sepDots (l : List Char) : Option (List Char) :=
  match l.dropWhile isWsChar with
  | c :: d :: rest =>
      if c.toNat = 46 ∧ d.toNat = 46 then some (rest.dropWhile isWsChar) else none
  | _ => none

/-- Consume `\s*,\s*`. -/
def sepComma (l : List Char) : Option (List Char) :=
  match l.dropWhile isWsChar with
  | c :: rest => if c.toNat = 44 then some (rest.dropWhile isWsChar) else none
  | [] => none

/-- Match `(\d+) sep (\d+)` anchored at the head of the list (the digit
runs are maximal; the separator classes are disjoint from digits, so
greedy matching is exact). -/
def matchNumPair (sep : List Char → Option (List Char)) (l : List Char) :
    Option (Nat × Nat) :=
  if headSat isDigitChar l then
    match sep (l.dropWhile isDigitChar) with
    | some r =>
        if headSat isDigitChar r then
          some (numParse (l.takeWhile isDigitChar), numParse (r.takeWhile isDigitChar))
        else none
    | none => none
  else none

/-- `re.search` of the pair pattern: the leftmost starting position
wins. -/
def searchNumPair (sep : List Char → Option (List Char)) :
    List Char → Option (Nat × Nat)
  | [] => none
  | c :: cs =>
      match matchNumPair sep (c :: cs) with
      | some p => some p
      | none => searchNumPair sep cs

/-- Maximal digit runs (`re.findall(r'\d+', s)`). -/
def digitRunsAux : List Char → List Char → List (List Char)
  | [], acc => if acc = [] then [] else [acc.reverse]
  | c :: cs, acc =>
      if isDigitChar c then digitRunsAux cs (c :: acc)
      else (if acc = [] then [] else [acc.reverse]) ++ digitRunsAux cs []

/-- Order the matched pair (`(a, b) if a <= b else (b, a)`). -/
def orderPair (p : Nat × Nat) : Nat × Nat :=
  if p.1 ≤ p.2 then p else (p.2, p.1)

/-- `PDFMatcher.parse_article_pages` (lines 173-206). -/
def parse_article_pages (pages_str : String) : Option (Nat × Nat) :=
  if pages_str = "" then none else
  if stripPageTag (pyLower (pyStrip pages_str.data)) = [] then none else
  match searchNumPair sepDash (stripPageTag (pyLower (pyStrip pages_str.data))) with
  | some p => some (orderPair p)
  | none =>
    match searchNumPair sepDots (stripPageTag (pyLower (pyStrip pages_str.data))) with
    | some p => some (orderPair p)
    | none =>
      match searchNumPair sepComma (stripPageTag (pyLower (pyStrip pages_str.data))) with
      | some p => some (orderPair p)
      | none =>
        match digitRunsAux (stripPageTag (pyLower (pyStrip pages_str.data))) [] with
        | [] => none
        | [d] => some (numParse d, numParse d)
        | d :: ds => some (orderPair (numParse d, numParse (ds.getLastD d)))

mutual

/-- `"".join(t.itertext())`: all text content in document order (tail
text is not modelled, see the element type's note). -/
def textConcat : Elem → List Char
  | .mk _ _ x cs => (match x with | some s => s.data | none => []) ++ textList cs

def textList : List Elem → List Char
  | [] => []
  | c :: rest => textConcat c ++ textList rest

end

/-- The `artTitles/artTitle` routing loop of lines 963-971: first
non-blank RUS and ENG titles win. -/
def artTitleLoop : List Elem → Option String × Option String →
    Option String × Option String
  | [], acc => acc
  | t :: rest, (tr, te) =>
      if pyStrip (textConcat t) = [] then artTitleLoop rest (tr, te)
      else if pyUpper (pyOrStr (t.getAttr "lang") "").data = "RUS".data ∧ tr = none then
        artTitleLoop rest (some ⟨pyStrip (textConcat t)⟩, te)
      else if pyUpper (pyOrStr (t.getAttr "lang") "").data = "ENG".data ∧ te = none then
        artTitleLoop rest (tr, some ⟨pyStrip (textConcat t)⟩)
      else artTitleLoop rest (tr, te)

/-- The `authors/author/individInfo` surname loop of lines 977-987. -/
def authorLoop : List Elem → List String × List String → List String × List String
  | [], acc => acc
  | ind :: rest, (ar, ae) =>
      match (ind.children.filter (fun c => decide (c.tag = "surname"))).head? with
      | none => authorLoop rest (ar, ae)
      | some sEl =>
          if pyStrip (pyOrStr sEl.text "").data = [] then authorLoop rest (ar, ae)
          else if pyUpper (pyOrStr (ind.getAttr "lang") "").data = "RUS".data then
            authorLoop rest (ar ++ [⟨pyStrip (pyOrStr sEl.text "").data⟩], ae)
          else if pyUpper (pyOrStr (ind.getAttr "lang") "").data = "ENG".data then
            authorLoop rest (ar, ae ++ [⟨pyStrip (pyOrStr sEl.text "").data⟩])
          else authorLoop rest (ar, ae)

/-- A truthy, non-blank code element text (`el.text and el.text.strip()`)
normalised by `f` — the `codes/doi` and `codes/edn` readers of lines
989-999. -/
def codeRead (el? : Option Elem) (f : String → String) : Option String :=
  match el? with
  | none => none
  | some el =>
      match el.text with
      | none => none
      | some s => if s = "" then none else
          if pyStrip s.data = [] then none else some (f s)

/-- `PDFMatcher.get_article_info` (lines 952-1013). -/
def get_article_info (article : Elem) (index : Nat) : ArticleInfo :=
  { index := index,
    article_id := article.getAttr "id",
    num := article.getAttr "num",
    pages :=
      match (article.children.filter (fun c => decide (c.tag = "pages"))).head? with
      | none => none
      | some pe =>
          match pe.text with
          | none => none
          | some s => if s = "" then none else parse_article_pages s,
    title_rus := (artTitleLoop (findPath2 article "artTitles" "artTitle") (none, none)).1,
    title_eng := (artTitleLoop (findPath2 article "artTitles" "artTitle") (none, none)).2,
    authors_rus := (authorLoop ((findPath2 article "authors" "author").flatMap
      (fun a => a.children.filter (fun c => decide (c.tag = "individInfo")))) ([], [])).1,
    authors_eng := (authorLoop ((findPath2 article "authors" "author").flatMap
      (fun a => a.children.filter (fun c => decide (c.tag = "individInfo")))) ([], [])).2,
    doi := codeRead (findPath2 article "codes" "doi").head? normalize_doi,
    edn := codeRead (findPath2 article "codes" "edn").head? normalize_edn }

/-! ## The document side of `process_zip` (lines 1736-1827) -/

mutual

/-- Clean every `article` descendant (the body of
`cleanup_pdf_files_in_articles` over `root.findall(".//article")`; the
returned removal count feeds logging only and is not modelled). -/
def docCleanupE : Elem → Elem
  | .mk t a x cs =>
      if t = "article" then cleanupArticle (.mk t a x (docCleanupL cs))
      else .mk t a x (docCleanupL cs)

def docCleanupL : List Elem → List Elem
  | [] => []
  | c :: rest => docCleanupE c :: docCleanupL rest

end

/-- `PDFMatcher.cleanup_pdf_files_in_articles` (lines 1141-1161) as a
pure transform of the manifest root (the root itself is not an
`.//article` hit). -/
def cleanup_pdf_files_in_articles (root : Elem) : Elem :=
  match root with
  | .mk t a x cs => .mk t a x (docCleanupL cs)

mutual

/-- Apply `g` to the article descendant with pre-order index `target`,
threading the count of articles seen so far. -/
def updateArtE (target : Nat) (g : Elem → Elem) : Elem → Nat → Elem × Nat
  | .mk t a x cs, seen =>
      if t = "article" then
        if seen = target then
          (g (.mk t a x (updateArtL target g cs (seen + 1)).1),
           (updateArtL target g cs (seen + 1)).2)
        else
          (.mk t a x (updateArtL target g cs (seen + 1)).1,
           (updateArtL target g cs (seen + 1)).2)
      else
        (.mk t a x (updateArtL target g cs seen).1, (updateArtL target g cs seen).2)

def updateArtL (target : Nat) (g : Elem → Elem) : List Elem → Nat → List Elem × Nat
  | [], seen => ([], seen)
  | c :: rest, seen =>
      ((updateArtE target g c seen).1 ::
        (updateArtL target g rest (updateArtE target g c seen).2).1,
       (updateArtL target g rest (updateArtE target g c seen).2).2)

end

/-- Apply `g` to the `target`-th element of `root.findall(".//article")`
(document pre-order, root excluded). -/
def updateArticleAt (doc : Elem) (target : Nat) (g : Elem → Elem) : Elem :=
  match doc with
  | .mk t a x cs => .mk t a x (updateArtL target g cs 0).1

/-- `root.findall(".//article")` (line 1750). -/
def findArticles (doc : Elem) : List Elem :=
  (descendants doc).filter (fun c => decide (c.tag = "article"))

/-- The `set_pdf_file_in_article` calls a list of assignment records
induces, in generation order. -/
def writesOf (results : List MatchResult) : List (Nat × String) :=
  results.filterMap (fun r => r.pdf_filename.map (fun f => (r.article_index, f)))

/-- `PDFMatcher.process_zip` (lines 1724-1883) up to its report
assembly.  The archive side of `extract_zip` is abstracted to whether an
XML member exists and to the extracted PDF entries; PDF metadata
extraction is I/O and enters as `metaOf`.  The result pairs the outcome
with the manifest document as the run leaves it: the three fatal checks
(no XML, lines 164-165; no PDFs, lines 1742-1743; no articles, lines
1751-1752) fire before any cleanup, matching write, or serialization
touches the document. -/
noncomputable def processZipModel (xmlFound : Bool) (pdf_entries : List PDFEntry)
    (doc : Elem) (metaOf : String → PDFMetadata) (cfg : Thresholds)
    (cleanup_old : Bool) : Except String (List MatchResult) × Elem :=
  if !xmlFound then (.error "В архиве не найден XML файл", doc)
  else if pdf_entries.isEmpty then (.error "В архиве не найдены PDF файлы", doc)
  else if (findArticles doc).isEmpty then (.error "В XML не найдены статьи", doc)
  else
    let doc1 := if cleanup_old then cleanup_pdf_files_in_articles doc else doc
    let arts := (List.enum (findArticles doc1)).map (fun p => get_article_info p.2 p.1)
    let assigned := phaseResults arts pdf_entries metaOf cfg
    let doc2 := (writesOf assigned.1).foldl
      (fun d w => updateArticleAt d w.1 (fun a => set_pdf_file_in_article a w.2)) doc1
    (.ok (sortAscIdx (assigned.1 ++
      (arts.filter (fun a => decide (a.index ∉ assigned.2))).map (fun a =>
        ({ article_index := a.index, article_id := a.article_id,
           article_title := articleTitleOf a, pdf_filename := none,
           score := 0, method := .unmatched, doi := a.doi,
           confidence := "none" } : MatchResult)))), doc2)

/-! ## Claim theorems -/

/-- Claim C4, counterexample: `normalize_doi` is not idempotent — each
call strips only one leading `doi:` tag, so a doubled tag survives the
first normalisation and is removed by the second. -/
theorem C4_counterexample :
    normalize_doi (normalize_doi "doi:doi:10.1234/abc") ≠
      normalize_doi "doi:doi:10.1234/abc" := by decide

/-- Claim C4 (amended): `normalize_edn` is idempotent for every string,
and `normalize_doi` is idempotent exactly on the stable outputs — those
whose normalisation matches none of the stripping patterns (leading
`doi` tag, URL prefix, trailing punctuation) again. -/
theorem C4_amended :
    (∀ s : String, normalize_edn (normalize_edn s) = normalize_edn s) ∧
    (∀ s : String, doiTagMatchB (normalize_doi s).data = false →
      urlTagMatchB (normalize_doi s).data = false →
      endsTrailPunctB (normalize_doi s).data = false →
      normalize_doi (normalize_doi s) = normalize_doi s) :=
  ⟨normalize_edn_idem, fun s h1 h2 h3 => normalize_doi_idem_of_stable s h1 h2 h3⟩

/-- Claim C5, counterexample: `"!"` is a non-empty string whose title
self-similarity is 0, not 1 — normalisation erases it, and the
`if not norm1 or not norm2` guard returns 0 before the equality
short-circuit is reached. -/
theorem C5_counterexample :
    ("!" : String) ≠ "" ∧ calculate_title_similarity "!" "!" ≠ 1 := by
  refine ⟨by decide, ?_⟩
  have h : calculate_title_similarity "!" "!" = 0 := by
    unfold calculate_title_similarity
    rw [if_neg (by decide), if_pos (Or.inl (by decide))]
  rw [h]
  norm_num

/-- Claim C5 (amended): the title similarity is 1 on any pair of equal
strings that survive normalisation; it is symmetric for all strings;
and it is 0 whenever an input is empty or the two normalised titles
share no split word and no trigram. -/
theorem C5_amended :
    (∀ s : String, normalize_text s ≠ "" → calculate_title_similarity s s = 1) ∧
    (∀ a b : String, calculate_title_similarity a b = calculate_title_similarity b a) ∧
    (∀ a b : String,
      (a = "" ∨ b = "" ∨
        ((∀ w ∈ pySplit (normalize_text a).data, w ∉ pySplit (normalize_text b).data) ∧
          trigrams (normalize_text a) ∩ trigrams (normalize_text b) = ∅)) →
      calculate_title_similarity a b = 0) :=
  ⟨fun _ h => calculate_title_similarity_refl h,
   calculate_title_similarity_comm,
   calculate_title_similarity_zero⟩

/-- A code reader returns nothing or a normalised value. -/
theorem codeRead_none_or (el? : Option Elem) (f : String → String) :
    codeRead el? f = none ∨ ∃ s : String, codeRead el? f = some (f s) := by
  cases el? with
  | none => exact Or.inl rfl
  | some el =>
    cases hx : el.text with
    | none =>
      left
      simp [codeRead, hx]
    | some s =>
      by_cases h0 : s = ""
      · left
        simp [codeRead, hx, h0]
      · by_cases h1 : pyStrip s.data = []
        · left
          simp [codeRead, hx, h0, h1]
        · right
          exact ⟨s, by simp [codeRead, hx, h0, h1]⟩

/-- The fixture of claim C6: an article whose `codes/edn` field holds a
7-character value. -/
def c6Article : Elem :=
  .mk "article" [] none [.mk "codes" [] none [.mk "edn" [] (some "ABCDEFG") []]]

/-- Claim C6, counterexample: `"ABCDEFG"` normalises to 7 uppercase
alphanumerics, not 6, yet the article record carries the truncated EDN
`"ABCDEF"` — and that EDN is usable: Phase 0 pairs the article with a
PDF carrying the same six characters. -/
theorem C6_counterexample :
    (ednAlnumChars "ABCDEFG").length ≠ 6 ∧
    (get_article_info c6Article 0).edn = some "ABCDEF" ∧
    (match_by_edn [⟨"p.pdf", "p.pdf"⟩]
        [get_article_info c6Article 0]
        (fun _ => { title := none, authors := [], doi := none,
                    doi_candidates := [], edn := some "ABCDEF" })).results.map
      (fun r => r.article_index) = [0] :=
  ⟨by decide, rfl, rfl⟩

/-- Claim C6 (amended): the EDN an article record carries from its
`codes/edn` field is absent or the `normalize_edn` image of the raw
text, and that image is the first `min 6 n` of the `n` uppercase
alphanumerics of the input — a value of length 6 exactly when at least
6 alphanumerics remain, with longer inputs truncated and shorter ones
kept as they are, never discarded. -/
theorem C6_amended :
    (∀ s : String, normalize_edn s = (⟨(ednAlnumChars s).take 6⟩ : String)) ∧
    (∀ s : String, (normalize_edn s).length = min 6 (ednAlnumChars s).length) ∧
    (∀ (e : Elem) (i : Nat), (get_article_info e i).edn = none ∨
      ∃ s : String, (get_article_info e i).edn = some (normalize_edn s)) :=
  ⟨normalize_edn_eq_take, length_normalize_edn,
   fun e i => codeRead_none_or (findPath2 e "codes" "edn").head? normalize_edn⟩

/-! ## Facts about the manifest writer (claim C9) -/

/-- Setting the text of a `<file>` element changes neither its tag nor
its PDF mark. -/
theorem pdfTest_set_text (t : String) (a : List (String × String))
    (x : Option String) (c : List Elem) (f : String) :
    (decide ((Elem.mk t a (some f) c).tag = "file") &&
      isPdfDesc (.mk t a (some f) c)) =
    (decide ((Elem.mk t a x c).tag = "file") && isPdfDesc (.mk t a x c)) := by
  simp [Elem.tag, isPdfDesc, Elem.getAttr, Elem.attrs]

/-- Replacing the first PDF text twice is replacing it once. -/
theorem replacePdf_absorb (f f2 : String) (cs : List Elem) :
    replacePdfText f2 (replacePdfText f cs) = replacePdfText f2 cs := by
  induction cs with
  | nil => rfl
  | cons fe rest ih =>
    cases fe with
    | mk t a x c =>
      by_cases h : (decide ((Elem.mk t a x c).tag = "file") &&
          isPdfDesc (.mk t a x c)) = true
      · have h1 : (decide ((Elem.mk t a (some f) c).tag = "file") &&
            isPdfDesc (.mk t a (some f) c)) = true := by
          rw [pdfTest_set_text t a x c f]
          exact h
        simp [replacePdfText, h, h1]
      · simp [replacePdfText, h, ih]

/-- The replacement does not change which elements pass the PDF test,
position by position. -/
theorem replacePdf_find_isSome (f : String) (cs : List Elem) :
    ((replacePdfText f cs).find?
      (fun fe => decide (fe.tag = "file") && isPdfDesc fe)).isSome =
    (cs.find? (fun fe => decide (fe.tag = "file") && isPdfDesc fe)).isSome := by
  induction cs with
  | nil => rfl
  | cons fe rest ih =>
    cases fe with
    | mk t a x c =>
      by_cases h : (decide ((Elem.mk t a x c).tag = "file") &&
          isPdfDesc (.mk t a x c)) = true
      · have h1 : (decide ((Elem.mk t a (some f) c).tag = "file") &&
            isPdfDesc (.mk t a (some f) c)) = true := by
          rw [pdfTest_set_text t a x c f]
          exact h
        simp [replacePdfText, h, List.find?_cons, h1]
      · simp [replacePdfText, h, List.find?_cons, ih]

/-- A `find?`-free prefix passes a replacement scan through to the
suffix. -/
theorem find_none_append {α : Type} (p : α → Bool) (l1 l2 : List α)
    (h : l1.find? p = none) : (l1 ++ l2).find? p = l2.find? p := by
  induction l1 with
  | nil => rfl
  | cons a rest ih =>
    by_cases hp : p a = true
    · rw [List.find?_cons_of_pos _ hp] at h
      exact absurd h (by simp)
    · rw [List.find?_cons_of_neg _ (by simpa using hp)] at h
      rw [List.cons_append, List.find?_cons_of_neg _ (by simpa using hp)]
      exact ih h

/-- Replacing in a list whose members all fail the PDF test, extended by
a fresh PDF element, rewrites just that element's text. -/
theorem replacePdf_append_of_none (f f2 : String) (cs : List Elem)
    (h : cs.find? (fun fe => decide (fe.tag = "file") && isPdfDesc fe) = none) :
    replacePdfText f2 (cs ++ [mkPdfFileElem f]) = cs ++ [mkPdfFileElem f2] := by
  induction cs with
  | nil => rfl
  | cons fe rest ih =>
    rw [List.find?_eq_none] at h
    have hfe := h fe (List.mem_cons_self fe rest)
    have hrest : rest.find? (fun fe => decide (fe.tag = "file") && isPdfDesc fe) = none :=
      List.find?_eq_none.mpr (fun x hx => h x (List.mem_cons_of_mem _ hx))
    cases fe with
    | mk t a x c =>
      rw [List.cons_append]
      simp only [replacePdfText]
      rw [if_neg (by simpa using hfe), ih hrest]
      rfl

/-- Updating the first PDF file of a `<files>` element twice equals
updating it once. -/
theorem setPdfInFiles_absorb (F : Elem) (f f2 : String) :
    setPdfInFiles (setPdfInFiles F f) f2 = setPdfInFiles F f2 := by
  cases F with
  | mk t a x cs =>
    by_cases hs : ((cs.find?
        (fun fe => decide (fe.tag = "file") && isPdfDesc fe)).isSome) = true
    · have hs2 : (((replacePdfText f cs).find?
          (fun fe => decide (fe.tag = "file") && isPdfDesc fe)).isSome) = true := by
        rw [replacePdf_find_isSome]
        exact hs
      simp only [setPdfInFiles]
      rw [if_pos hs]
      simp only [setPdfInFiles]
      rw [if_pos hs2, if_pos hs, replacePdf_absorb]
    · have hn : cs.find? (fun fe => decide (fe.tag = "file") && isPdfDesc fe) = none :=
        Option.not_isSome_iff_eq_none.mp (by simpa using hs)
      have hfind : (((cs ++ [mkPdfFileElem f]).find?
          (fun fe => decide (fe.tag = "file") && isPdfDesc fe)).isSome) = true := by
        rw [find_none_append _ cs _ hn]
        rfl
      simp only [setPdfInFiles]
      rw [if_neg (by simpa using hs)]
      simp only [setPdfInFiles]
      rw [if_pos hfind, replacePdf_append_of_none f f2 cs hn,
        if_neg (by simpa using hs)]

/-- The writer never changes the tag of the `<files>` element. -/
theorem setPdfInFiles_tag (F : Elem) (f : String) :
    (setPdfInFiles F f).tag = F.tag := by
  cases F with
  | mk t a x cs =>
    simp only [setPdfInFiles]
    by_cases hs : ((cs.find?
        (fun fe => decide (fe.tag = "file") && isPdfDesc fe)).isSome) = true
    · rw [if_pos hs]
      rfl
    · rw [if_neg (by simpa using hs)]
      rfl

/-- Updating the first `<files>` child twice equals updating it once. -/
theorem updateFF_absorb (f f2 : String) (cs : List Elem) :
    updateFirstFiles f2 (updateFirstFiles f cs) = updateFirstFiles f2 cs := by
  induction cs with
  | nil => rfl
  | cons c rest ih =>
    by_cases h : (decide (c.tag = "files")) = true
    · have h1 : (decide ((setPdfInFiles c f).tag = "files")) = true := by
        rw [decide_eq_true_eq, setPdfInFiles_tag]
        exact of_decide_eq_true h
      simp only [updateFirstFiles]
      rw [if_pos h, if_pos h]
      simp only [updateFirstFiles]
      rw [if_pos h1, setPdfInFiles_absorb]
    · simp only [updateFirstFiles]
      rw [if_neg (by simpa using h), if_neg (by simpa using h)]
      simp only [updateFirstFiles]
      rw [if_neg (by simpa using h), ih]

/-- The update does not change which children are `<files>` elements. -/
theorem updateFF_find_isSome (f : String) (cs : List Elem) :
    ((updateFirstFiles f cs).find? (fun c => decide (c.tag = "files"))).isSome =
    (cs.find? (fun c => decide (c.tag = "files"))).isSome := by
  induction cs with
  | nil => rfl
  | cons c rest ih =>
    by_cases h : (decide (c.tag = "files")) = true
    · have h1 : (decide ((setPdfInFiles c f).tag = "files")) = true := by
        rw [decide_eq_true_eq, setPdfInFiles_tag]
        exact of_decide_eq_true h
      simp only [updateFirstFiles]
      rw [if_pos h]
      simp [List.find?_cons, h1, h]
    · simp only [updateFirstFiles]
      rw [if_neg (by simpa using h)]
      simp only [List.find?_cons]
      rw [Bool.not_eq_true] at h
      rw [h]
      simpa using ih

/-- Updating in a list with no `<files>` child, extended by a fresh one,
updates just that fresh element. -/
theorem updateFF_append_of_none (fn : String) (cs : List Elem) (F : Elem)
    (hF : (decide (F.tag = "files")) = true)
    (h : cs.find? (fun c => decide (c.tag = "files")) = none) :
    updateFirstFiles fn (cs ++ [F]) = cs ++ [setPdfInFiles F fn] := by
  induction cs with
  | nil =>
    simp only [List.nil_append, updateFirstFiles]
    rw [if_pos hF]
  | cons c rest ih =>
    rw [List.find?_eq_none] at h
    have hc := h c (List.mem_cons_self c rest)
    have hrest : rest.find? (fun c => decide (c.tag = "files")) = none :=
      List.find?_eq_none.mpr (fun x hx => h x (List.mem_cons_of_mem _ hx))
    rw [List.cons_append]
    simp only [updateFirstFiles]
    rw [if_neg (by simpa using hc), ih hrest]
    rfl

/-- Claim C9's absorption law, article level: writing a PDF file name
and then writing another (or the same) one equals writing only the
second — in particular the manifest writer is idempotent for a fixed
filename. -/
theorem setPdf_absorb (a : Elem) (f f2 : String) :
    set_pdf_file_in_article (set_pdf_file_in_article a f) f2 =
      set_pdf_file_in_article a f2 := by
  cases a with
  | mk t at' x cs =>
    by_cases hs : ((cs.find? (fun c => decide (c.tag = "files"))).isSome) = true
    · have hs2 : (((updateFirstFiles f cs).find?
          (fun c => decide (c.tag = "files"))).isSome) = true := by
        rw [updateFF_find_isSome]
        exact hs
      simp only [set_pdf_file_in_article]
      rw [if_pos hs]
      simp only [set_pdf_file_in_article]
      rw [if_pos hs2, if_pos hs, updateFF_absorb]
    · have hn : cs.find? (fun c => decide (c.tag = "files")) = none :=
        Option.not_isSome_iff_eq_none.mp (by simpa using hs)
      have hfind : (((cs ++ [Elem.mk "files" [] none [mkPdfFileElem f]]).find?
          (fun c => decide (c.tag = "files"))).isSome) = true := by
        rw [find_none_append _ cs _ hn]
        rfl
      simp only [set_pdf_file_in_article]
      rw [if_neg (by simpa using hs)]
      simp only [set_pdf_file_in_article]
      rw [if_pos hfind,
        updateFF_append_of_none f2 cs _ (by rfl) hn, if_neg (by simpa using hs)]
      rfl

/-- Replacing the text of the first PDF file keeps the number of PDF
file children. -/
theorem replacePdf_filter_length (f : String) (cs : List Elem) :
    ((replacePdfText f cs).filter
      (fun fe => decide (fe.tag = "file") && isPdfDesc fe)).length =
    (cs.filter (fun fe => decide (fe.tag = "file") && isPdfDesc fe)).length := by
  induction cs with
  | nil => rfl
  | cons fe rest ih =>
    cases fe with
    | mk t a x c =>
      by_cases h : (decide ((Elem.mk t a x c).tag = "file") &&
          isPdfDesc (.mk t a x c)) = true
      · have h1 : (decide ((Elem.mk t a (some f) c).tag = "file") &&
            isPdfDesc (.mk t a (some f) c)) = true := by
          rw [pdfTest_set_text t a x c f]
          exact h
        simp only [replacePdfText]
        rw [if_pos h]
        simp [List.filter_cons, h, h1]
      · simp only [replacePdfText]
        rw [if_neg (by simpa using h)]
        simp [List.filter_cons, h, ih]

/-- A `<files>` element with at most one PDF file child has exactly one
after a write. -/
theorem setPdfInFiles_count (F : Elem) (f : String)
    (h : ((F.children.filter
      (fun fe => decide (fe.tag = "file") && isPdfDesc fe)).length) ≤ 1) :
    (((setPdfInFiles F f).children.filter
      (fun fe => decide (fe.tag = "file") && isPdfDesc fe)).length) = 1 := by
  cases F with
  | mk t a x cs =>
    by_cases hs : ((cs.find?
        (fun fe => decide (fe.tag = "file") && isPdfDesc fe)).isSome) = true
    · obtain ⟨fe, hmem, hfe⟩ := List.find?_isSome.mp hs
      have hlow : 0 < (cs.filter
          (fun fe => decide (fe.tag = "file") && isPdfDesc fe)).length :=
        List.length_pos.mpr (List.ne_nil_of_mem (List.mem_filter.mpr ⟨hmem, hfe⟩))
      simp only [setPdfInFiles]
      rw [if_pos hs]
      simp only [Elem.children] at h ⊢
      rw [replacePdf_filter_length]
      omega
    · have hn : cs.find? (fun fe => decide (fe.tag = "file") && isPdfDesc fe) = none :=
        Option.not_isSome_iff_eq_none.mp (by simpa using hs)
      have hnil : cs.filter (fun fe => decide (fe.tag = "file") && isPdfDesc fe) = [] := by
        rw [List.filter_eq_nil_iff]
        intro x hx
        exact List.find?_eq_none.mp hn x hx
      simp only [setPdfInFiles]
      rw [if_neg (by simpa using hs)]
      simp only [Elem.children]
      rw [List.filter_append, hnil]
      rfl

/-- Updating the first `<files>` child updates the head of the
`<files>`-filtered view and nothing else. -/
theorem updateFF_filter (f : String) (cs : List Elem) :
    (updateFirstFiles f cs).filter (fun c => decide (c.tag = "files")) =
    (match cs.filter (fun c => decide (c.tag = "files")) with
     | [] => []
     | F :: rest => setPdfInFiles F f :: rest) := by
  induction cs with
  | nil => rfl
  | cons c rest ih =>
    by_cases h : (decide (c.tag = "files")) = true
    · have h1 : (decide ((setPdfInFiles c f).tag = "files")) = true := by
        rw [decide_eq_true_eq, setPdfInFiles_tag]
        exact of_decide_eq_true h
      simp only [updateFirstFiles]
      rw [if_pos h]
      simp [List.filter_cons, h, h1]
    · simp only [updateFirstFiles]
      rw [if_neg (by simpa using h)]
      simp only [List.filter_cons]
      rw [Bool.not_eq_true] at h
      rw [h]
      simpa using ih

/-- An article with at most one `<files>` child and at most one PDF file
reference carries exactly one after a write. -/
theorem setPdf_count (a : Elem) (f : String)
    (h1 : (a.children.filter (fun c => decide (c.tag = "files"))).length ≤ 1)
    (h2 : pdfFileCount a ≤ 1) :
    pdfFileCount (set_pdf_file_in_article a f) = 1 := by
  cases a with
  | mk t at' x cs =>
    by_cases hs : ((cs.find? (fun c => decide (c.tag = "files"))).isSome) = true
    · obtain ⟨F, hmem, hF⟩ := List.find?_isSome.mp hs
      have hne : cs.filter (fun c => decide (c.tag = "files")) ≠ [] :=
        List.ne_nil_of_mem (List.mem_filter.mpr ⟨hmem, hF⟩)
      simp only [Elem.children] at h1
      obtain ⟨G, hG⟩ : ∃ G, cs.filter (fun c => decide (c.tag = "files")) = [G] := by
        cases hf : cs.filter (fun c => decide (c.tag = "files")) with
        | nil => exact absurd hf hne
        | cons G rest2 =>
          rw [hf] at h1
          simp at h1
          exact ⟨G, by rw [h1]⟩
      have hcnt : (G.children.filter
          (fun fe => decide (fe.tag = "file") && isPdfDesc fe)).length ≤ 1 := by
        unfold pdfFileCount at h2
        simp only [Elem.children] at h2
        rw [hG] at h2
        simpa using h2
      simp only [set_pdf_file_in_article]
      rw [if_pos hs]
      unfold pdfFileCount
      simp only [Elem.children]
      rw [updateFF_filter, hG]
      have hone := setPdfInFiles_count G f hcnt
      simp only [Elem.children] at hone
      simp [hone]
    · have hn : cs.find? (fun c => decide (c.tag = "files")) = none :=
        Option.not_isSome_iff_eq_none.mp (by simpa using hs)
      have hnil : cs.filter (fun c => decide (c.tag = "files")) = [] := by
        rw [List.filter_eq_nil_iff]
        intro y hy
        exact List.find?_eq_none.mp hn y hy
      simp only [set_pdf_file_in_article]
      rw [if_neg (by simpa using hs)]
      unfold pdfFileCount
      simp only [Elem.children]
      rw [List.filter_append, hnil]
      rfl

/-- The fixture of claim C9: an article already carrying two
`<file desc="PDF">` references (a manifest from an earlier, dirtier
producer). -/
def c9Dirty : Elem :=
  .mk "article" [] none
    [.mk "files" [] none [mkPdfFileElem "old1.pdf", mkPdfFileElem "old2.pdf"]]

/-- Claim C9, counterexample: the writer only retargets the FIRST
`file(desc=PDF)` entry, so an article that already carries two keeps
two after any number of writes — the write alone does not enforce the
at-most-one invariant. -/
theorem C9_counterexample :
    pdfFileCount (set_pdf_file_in_article c9Dirty "x.pdf") = 2 ∧
    pdfFileCount (set_pdf_file_in_article
      (set_pdf_file_in_article c9Dirty "x.pdf") "x.pdf") = 2 := ⟨rfl, rfl⟩

/-- Claim C9 (amended): writing is absorbing — a second write (same or
different filename) equals just the second write, so repeated writes of
one filename are idempotent — and on an article with at most one
`<files>` child holding at most one PDF reference (what the run's
cleanup pass produces), a write leaves exactly one `file(desc=PDF)`
entry. -/
theorem C9_amended (a : Elem) (f f2 : String) :
    set_pdf_file_in_article (set_pdf_file_in_article a f) f2 =
      set_pdf_file_in_article a f2 ∧
    ((a.children.filter (fun c => decide (c.tag = "files"))).length ≤ 1 →
      pdfFileCount a ≤ 1 →
      pdfFileCount (set_pdf_file_in_article a f) = 1) :=
  ⟨setPdf_absorb a f f2, fun h1 h2 => setPdf_count a f h1 h2⟩

/-- Claim C10 (confirmed): each of the three fatal conditions — no XML
member in the archive, no PDF entries, no `article` element in the
manifest — makes the run abort with an error, with the manifest document
exactly as it was: the checks precede every cleanup, write, and
serialization. -/
theorem C10_fatal (xmlFound : Bool) (pes : List PDFEntry) (doc : Elem)
    (metaOf : String → PDFMetadata) (cfg : Thresholds) (co : Bool)
    (h : xmlFound = false ∨ pes = [] ∨ findArticles doc = []) :
    ∃ msg : String,
      processZipModel xmlFound pes doc metaOf cfg co = (.error msg, doc) := by
  rcases h with h | h | h
  · subst h
    exact ⟨_, rfl⟩
  · subst h
    cases xmlFound
    · exact ⟨_, rfl⟩
    · exact ⟨_, rfl⟩
  · cases xmlFound
    · exact ⟨_, rfl⟩
    · cases pes with
      | nil => exact ⟨_, rfl⟩
      | cons p ps =>
        refine ⟨"В XML не найдены статьи", ?_⟩
        have hempty : (findArticles doc).isEmpty = true := by
          rw [h]
          rfl
        simp [processZipModel, hempty]

/-- Witness for claim C10 at a concrete archive: a manifest with no
articles and an archive with no PDFs. -/
theorem C10_witness :
    ∃ msg : String,
      processZipModel true [] (.mk "journal" [] none [])
        (fun _ => { title := none, authors := [], doi := none,
                    doi_candidates := [], edn := none })
        defaultThresholds true = (.error msg, .mk "journal" [] none []) :=
  C10_fatal true [] (.mk "journal" [] none []) _ defaultThresholds true
    (Or.inr (Or.inl rfl))

/-! ## Claim C7: fixed weights against the spec's redistribution -/

/-- Modelled from the spec: the Phase 2 combined score with weight
redistribution — when a signal is structurally unavailable for a pair
(no PDF title extracted, no PDF authors, no article page range, no
article title for keywords), its weight is dropped and the remaining
weights are scaled so the available signals sum their full weight. -/
noncomputable def availWeightSum (meta : PDFMetadata) (art : ArticleInfo) : ℝ :=
  (if pyOrStr meta.title "" ≠ "" then wTitle else 0) +
  (if meta.authors ≠ [] then wAuthors else 0) +
  (if art.pages ≠ none then wPages else 0) +
  (if pyOrStr art.title_rus (pyOrStr art.title_eng "") ≠ "" then wFilename else 0)

/-- Modelled from the spec: the redistributed total — the weighted sum
of the available components, renormalised by the available weight. -/
noncomputable def specRedistributedScore (meta : PDFMetadata) (art : ArticleInfo)
    (pdfName : String) : ℝ :=
  if availWeightSum meta art = 0 then 0 else
  ((if pyOrStr meta.title "" ≠ "" then wTitle * titleComponent meta art else 0) +
   (if meta.authors ≠ [] then wAuthors * authorsComponent meta art else 0) +
   (if art.pages ≠ none then wPages * pagesComponent art pdfName else 0) +
   (if pyOrStr art.title_rus (pyOrStr art.title_eng "") ≠ "" then
     wFilename * filenameComponent art pdfName else 0)) / availWeightSum meta art

/-- The presence-vector cosine on one shared surname is 1. -/
theorem cosineSimFn_singleton (s : String) (v1 v2 : String → ℝ)
    (h1 : v1 s = 1) (h2 : v2 s = 1) :
    cosineSimFn {s} {s} v1 v2 = 1 := by
  unfold cosineSimFn
  rw [Finset.inter_self, if_neg (Finset.singleton_ne_empty s),
    Finset.sum_singleton, Finset.sum_singleton, Finset.sum_singleton, h1, h2]
  rw [if_neg (by norm_num [Real.sqrt_one])]
  norm_num [Real.sqrt_one]

/-- The author cosine of two equal singleton surname sets is 1. -/
theorem authorCosine_singleton (s : String) : authorCosine {s} {s} = 1 := by
  unfold authorCosine
  rw [Finset.union_self, if_pos (Finset.singleton_ne_empty s)]
  exact cosineSimFn_singleton s _ _ (by simp) (by simp)

/-- No partial credit between identical surname sets. -/
theorem authorPartialScore_self (P : Finset String) :
    authorPartialScore P P = 0 := by
  unfold authorPartialScore
  rw [Finset.filter_false_of_mem (fun p hp => by
    rintro ⟨hnot, _⟩
    exact hnot hp)]
  simp

/-- The concrete author-score evaluation behind claim C7: one PDF author
line against its own surname scores 0.8 (exact 1, cosine 1, partial 0;
the weights 0.5/0.3/0.2 leave 0.8). -/
theorem compare_authors_ivanov :
    compare_authors ["Ivanov I.I."] ["Ivanov"] = 0.8 := by
  unfold compare_authors
  rw [if_neg (by decide), if_neg (by decide), if_neg (by decide)]
  rw [show authXmlSet ["Ivanov"] = {"ivanov"} from by decide,
      show authPdfSet ["Ivanov I.I."] = {"ivanov"} from by decide,
      authorCosine_singleton, authorPartialScore_self]
  unfold authorExactScore
  rw [Finset.inter_self, Finset.card_singleton]
  norm_num [min_def]

/-- The PDF metadata of claim C7's pair: no title extracted at all, one
author line. -/
def meta7 : PDFMetadata :=
  { title := none, authors := ["Ivanov I.I."], doi := none,
    doi_candidates := [], edn := none }

/-- The article of claim C7's pair: authors only. -/
def art7 : ArticleInfo :=
  { index := 0, article_id := none, num := none, pages := none,
    title_rus := none, title_eng := none, authors_rus := ["Ivanov"],
    authors_eng := [], doi := none, edn := none }

/-- Claim C7, counterexample: for a pair whose only available signal is
the authors, the code still multiplies by the fixed weight 0.30 —
total 0.24 — while the spec's redistribution would score 0.8; the
available signals' weights sum to 0.30, not the full total weight. -/
theorem C7_counterexample :
    (calculate_combined_score meta7 art7 "x.pdf").1 = 0.24 ∧
    specRedistributedScore meta7 art7 "x.pdf" = 0.8 ∧
    availWeightSum meta7 art7 ≠ wTitle + wAuthors + wPages + wFilename := by
  have hauth : authorsComponent meta7 art7 = 0.8 := by
    unfold authorsComponent
    rw [if_neg (by decide), if_pos (by decide), if_neg (by decide)]
    exact compare_authors_ivanov
  have htitle : titleComponent meta7 art7 = 0 := rfl
  have hpages : pagesComponent art7 "x.pdf" = 0 := rfl
  have hfn : filenameComponent art7 "x.pdf" = 0 := by
    unfold filenameComponent
    rw [if_pos (by decide)]
  have havail : availWeightSum meta7 art7 = wAuthors := by
    unfold availWeightSum
    rw [if_neg (by decide), if_pos (by decide), if_neg (by decide),
      if_neg (by decide)]
    norm_num [wAuthors]
  refine ⟨?_, ?_, ?_⟩
  · unfold calculate_combined_score
    rw [hauth, htitle, hpages, hfn]
    norm_num [wTitle, wAuthors, wPages, wFilename]
  · unfold specRedistributedScore
    rw [havail, hauth]
    rw [if_neg (by norm_num [wAuthors]), if_neg (by decide), if_pos (by decide),
      if_neg (by decide), if_neg (by decide)]
    norm_num [wAuthors]
  · rw [havail]
    norm_num [wTitle, wAuthors, wPages, wFilename]

/-- The author comparison never exceeds 1. -/
theorem compare_authors_le_one (p x : List String) : compare_authors p x ≤ 1 := by
  unfold compare_authors
  split_ifs
  · norm_num
  · norm_num
  · norm_num
  · exact min_le_left _ _

/-- The authors component never exceeds 1. -/
theorem authorsComponent_le_one (meta : PDFMetadata) (art : ArticleInfo) :
    authorsComponent meta art ≤ 1 := by
  unfold authorsComponent
  split_ifs
  · norm_num
  · exact max_le (compare_authors_le_one _ _) (compare_authors_le_one _ _)
  · exact compare_authors_le_one _ _
  · exact compare_authors_le_one _ _
  · norm_num

/-- The pages component never exceeds 1. -/
theorem pagesComponent_le_one (art : ArticleInfo) (pdfName : String) :
    pagesComponent art pdfName ≤ 1 := by
  unfold pagesComponent
  cases art.pages with
  | none => norm_num
  | some p =>
    cases p with
    | mk s e =>
      dsimp only
      split_ifs
      · norm_num
      · norm_num
      · norm_num

/-- The filename component never exceeds 1. -/
theorem filenameComponent_le_one (art : ArticleInfo) (pdfName : String) :
    filenameComponent art pdfName ≤ 1 := by
  unfold filenameComponent
  split_ifs with h0 h1 h2
  · norm_num
  · apply div_le_one_of_le₀
    · exact_mod_cast Finset.card_le_card Finset.inter_subset_union
    · positivity
  · norm_num
  · norm_num

/-- Claim C7 (amended): no weight is redistributed — each signal is
multiplied by its fixed weight whether or not the others are available,
so a pair with no extracted PDF title can score at most
`wAuthors + wPages + wFilename = 0.40`, strictly less than the full
total weight. -/
theorem C7_amended (meta : PDFMetadata) (art : ArticleInfo) (pdfName : String)
    (h : meta.title = none) :
    (calculate_combined_score meta art pdfName).1 ≤ wAuthors + wPages + wFilename ∧
    wAuthors + wPages + wFilename < wTitle + wAuthors + wPages + wFilename := by
  constructor
  · have htitle : titleComponent meta art = 0 := by
      unfold titleComponent
      rw [h]
    unfold calculate_combined_score
    rw [htitle, mul_zero, zero_add]
    have h1 : wAuthors * authorsComponent meta art ≤ wAuthors := by
      nth_rewrite 2 [show wAuthors = wAuthors * 1 from (mul_one _).symm]
      exact mul_le_mul_of_nonneg_left (authorsComponent_le_one meta art)
        (by norm_num [wAuthors])
    have h2 : wPages * pagesComponent art pdfName ≤ wPages := by
      nth_rewrite 2 [show wPages = wPages * 1 from (mul_one _).symm]
      exact mul_le_mul_of_nonneg_left (pagesComponent_le_one art pdfName)
        (by norm_num [wPages])
    have h3 : wFilename * filenameComponent art pdfName ≤ wFilename := by
      nth_rewrite 2 [show wFilename = wFilename * 1 from (mul_one _).symm]
      exact mul_le_mul_of_nonneg_left (filenameComponent_le_one art pdfName)
        (by norm_num [wFilename])
    exact add_le_add (add_le_add h1 h2) h3
  · norm_num [wTitle, wAuthors, wPages, wFilename]

/-- Witness for claim C7's amended bound at the concrete pair. -/
theorem C7_witness :
    meta7.title = none ∧
    ((calculate_combined_score meta7 art7 "x.pdf").1 ≤
        wAuthors + wPages + wFilename ∧
      wAuthors + wPages + wFilename < wTitle + wAuthors + wPages + wFilename) :=
  ⟨rfl, C7_amended meta7 art7 "x.pdf" rfl⟩

/-! ## Claim C8: ambiguous articles are deferred past levels 1 and 2 -/

/-- Threshold adjustment never touches the margin gap. -/
theorem adjust_margin (scores : List ℝ) (cfg : Thresholds) :
    (adjust_thresholds scores cfg).margin = cfg.margin := by
  unfold adjust_thresholds
  split_ifs
  · rfl
  · rfl

/-- A fold preserves "no result for article `i`" whenever its step
does. -/
theorem foldl_results_ne (i : Nat)
    (step : FallbackState → ScoredPair → FallbackState)
    (hstep : ∀ st q, (∀ r ∈ st.results, r.article_index ≠ i) →
      ∀ r ∈ (step st q).results, r.article_index ≠ i)
    (l : List ScoredPair) :
    ∀ st : FallbackState, (∀ r ∈ st.results, r.article_index ≠ i) →
      ∀ r ∈ (l.foldl step st).results, r.article_index ≠ i := by
  induction l with
  | nil => exact fun st h => h
  | cons q rest ih => exact fun st h => ih (step st q) (hstep st q h)

/-- Level 1 never assigns an ambiguous article. -/
theorem level1_preserves (sorted : List ScoredPair) (cfg : Thresholds) (i : Nat)
    (hamb : isAmbiguous sorted cfg.margin i) :
    ∀ st q, (∀ r ∈ st.results, r.article_index ≠ i) →
      ∀ r ∈ (level1Step sorted cfg st q).results, r.article_index ≠ i := by
  intro st q h r hr
  unfold level1Step at hr
  split_ifs at hr with h1 h2 h3
  · exact h r hr
  · exact h r hr
  · unfold fallbackAssign at hr
    simp only [List.mem_append, List.mem_singleton] at hr
    rcases hr with hr | hr
    · exact h r hr
    · subst hr
      intro hc
      dsimp only at hc
      exact h2 (by rw [hc]; exact hamb)
  · exact h r hr

/-- Level 2 never assigns an ambiguous article. -/
theorem level2_preserves (sorted : List ScoredPair) (cfg : Thresholds) (i : Nat)
    (hamb : isAmbiguous sorted cfg.margin i) :
    ∀ st q, (∀ r ∈ st.results, r.article_index ≠ i) →
      ∀ r ∈ (level2Step sorted cfg st q).results, r.article_index ≠ i := by
  intro st q h r hr
  unfold level2Step at hr
  split_ifs at hr with h1 h2 h3
  · exact h r hr
  · exact h r hr
  · unfold fallbackAssign at hr
    simp only [List.mem_append, List.mem_singleton] at hr
    rcases hr with hr | hr
    · exact h r hr
    · subst hr
      intro hc
      dsimp only at hc
      exact h2 (by rw [hc]; exact hamb)
  · exact h r hr

/-- Claim C8 (confirmed): an article whose top two candidate scores sit
within the margin gap is ambiguous, the adaptive adjustment keeps that
gap unchanged, and neither the high-confidence pass nor the
medium-confidence pass of the fallback produces a result for it. -/
theorem C8_ambiguous_deferred (sorted : List ScoredPair) (cfg : Thresholds)
    (scores : List ℝ) (i : Nat)
    (hamb : isAmbiguous sorted cfg.margin i) :
    (adjust_thresholds scores cfg).margin = cfg.margin ∧
    ∀ r ∈ (sorted.foldl (level2Step sorted cfg)
        (sorted.foldl (level1Step sorted cfg)
          (⟨[], [], []⟩ : FallbackState))).results,
      r.article_index ≠ i := by
  refine ⟨adjust_margin scores cfg, ?_⟩
  exact foldl_results_ne i (level2Step sorted cfg)
    (level2_preserves sorted cfg i hamb) sorted _
    (foldl_results_ne i (level1Step sorted cfg)
      (level1_preserves sorted cfg i hamb) sorted _
      (fun r hr => absurd hr (List.not_mem_nil r)))

/-- The article of claim C8's witness scenario. -/
def art8 : ArticleInfo :=
  { index := 0, article_id := none, num := none, pages := none,
    title_rus := none, title_eng := none, authors_rus := [],
    authors_eng := [], doi := none, edn := none }

/-- First candidate of claim C8's witness: score 0.52. -/
noncomputable def q8a : ScoredPair :=
  ⟨0.52, art8, ⟨"a.pdf", "a.pdf"⟩, ⟨0, 0, 0, 0⟩⟩

/-- Second candidate of claim C8's witness: score 0.50. -/
noncomputable def q8b : ScoredPair :=
  ⟨0.50, art8, ⟨"b.pdf", "b.pdf"⟩, ⟨0, 0, 0, 0⟩⟩

/-- The two candidates of article 0, in sorted order. -/
theorem c8_cands : candsFor [q8a, q8b] 0 = [q8a, q8b] := by
  simp [candsFor, q8a, q8b, art8]

/-- The re-sort keeps the already-descending pair. -/
theorem c8_sorted :
    sortDescBy (fun q : ScoredPair => q.score) [q8a, q8b] = [q8a, q8b] := by
  simp only [sortDescBy, insertDescBy]
  rw [if_neg (by simp [q8a, q8b]; norm_num)]

/-- Article 0 of the witness scenario is ambiguous: gap 0.02 < 0.15. -/
theorem c8_ambiguous : isAmbiguous [q8a, q8b] defaultThresholds.margin 0 := by
  constructor
  · rw [c8_cands]
    decide
  · rw [c8_cands, c8_sorted]
    simp only [List.getD_cons_zero, List.getD_cons_succ]
    simp [q8a, q8b, defaultThresholds]
    norm_num

/-- Witness for claim C8: the 0.52/0.50 pair with gap 0.02. -/
theorem C8_witness :
    isAmbiguous [q8a, q8b] defaultThresholds.margin 0 ∧
    ((adjust_thresholds [] defaultThresholds).margin = defaultThresholds.margin ∧
      ∀ r ∈ ([q8a, q8b].foldl (level2Step [q8a, q8b] defaultThresholds)
          ([q8a, q8b].foldl (level1Step [q8a, q8b] defaultThresholds)
            (⟨[], [], []⟩ : FallbackState))).results,
        r.article_index ≠ 0) :=
  ⟨c8_ambiguous,
   C8_ambiguous_deferred [q8a, q8b] defaultThresholds [] 0 c8_ambiguous⟩

/-! ## Claim C1: the matched-set reset breaks the partial injection -/

/-- Article 0 of claim C1's bundle: EDN only. -/
def c1Art0 : ArticleInfo :=
  { index := 0, article_id := none, num := none, pages := none,
    title_rus := none, title_eng := none, authors_rus := [],
    authors_eng := [], doi := none, edn := some "ABCDEF" }

/-- Article 1 of claim C1's bundle: DOI only. -/
def c1Art1 : ArticleInfo :=
  { index := 1, article_id := none, num := none, pages := none,
    title_rus := none, title_eng := none, authors_rus := [],
    authors_eng := [], doi := some "10.1234/abcd", edn := none }

/-- The single PDF of claim C1's bundle: its metadata carries both the
EDN of article 0 and the DOI of article 1. -/
def c1Meta : String → PDFMetadata := fun _ =>
  { title := none, authors := [], doi := some "10.1234/abcd",
    doi_candidates := [], edn := some "ABCDEF" }

/-- Claim C1 (code bug): one full run assigns the single PDF `p0.pdf` to
BOTH articles — Phase 0 pairs it with article 0 by EDN, then Phase 1,
whose re-initialised matched sets have discarded Phase 0's assignments,
pairs the same file with article 1 by DOI; the unmatched loop, driven by
the Phase-1/2 sets only, additionally re-lists article 0 as unmatched.
The assignment is not a partial injection: `p0.pdf` appears with a
non-null filename in two different articles' results. -/
theorem C1_pdf_assigned_twice :
    (runMatches [c1Art0, c1Art1] [⟨"p0.pdf", "p0.pdf"⟩] c1Meta
        defaultThresholds).map (fun r => (r.article_index, r.pdf_filename)) =
      [(0, some "p0.pdf"), (0, none), (1, some "p0.pdf")] := rfl

/-! ## Claim C2: exact-DOI pairing -/

/-- The article of claim C2's counterexample: unique DOI. -/
def c2Art : ArticleInfo :=
  { index := 0, article_id := none, num := none, pages := none,
    title_rus := none, title_eng := none, authors_rus := [],
    authors_eng := [], doi := some "10.1234/abcd", edn := none }

/-- Two PDFs whose metadata carries the same DOI as the article. -/
def c2Meta : String → PDFMetadata := fun _ =>
  { title := none, authors := [], doi := some "10.1234/abcd",
    doi_candidates := [], edn := none }

/-- Claim C2, counterexample: article 0's DOI equals PDF `p2.pdf`'s
extracted DOI, that DOI belongs to exactly one article, and neither was
assigned by an earlier phase (Phase 0 matched nothing) — yet the run
does not pair them: the earlier PDF `p1.pdf` with the same DOI consumes
the article first, inside the same phase, and `p2.pdf` gets nothing. -/
theorem C2_counterexample :
    c2Art.doi = some "10.1234/abcd" ∧
    (c2Meta "p2.pdf").doi = some "10.1234/abcd" ∧
    doiGroup [c2Art] "10.1234/abcd" = [c2Art] ∧
    (match_by_edn [⟨"p1.pdf", "p1.pdf"⟩, ⟨"p2.pdf", "p2.pdf"⟩] [c2Art]
      c2Meta).results = [] ∧
    ((phaseResults [c2Art] [⟨"p1.pdf", "p1.pdf"⟩, ⟨"p2.pdf", "p2.pdf"⟩] c2Meta
        defaultThresholds).1.map (fun r => (r.article_index, r.pdf_filename))) =
      [(0, some "p1.pdf")] :=
  ⟨rfl, rfl, rfl, rfl, rfl⟩

/-- Each DOI step appends to the result list, never rewrites it. -/
theorem doiStep_results_extends (arts : List ArticleInfo)
    (metaOf : String → PDFMetadata) (st : MatchState) (pe : PDFEntry) :
    ∃ t, (doiStep arts metaOf st pe).results = st.results ++ t := by
  unfold doiStep idAssign
  repeat' split
  all_goals first
    | exact ⟨[_], rfl⟩
    | exact ⟨[], (List.append_nil _).symm⟩

/-- A DOI-phase fold appends to the result list. -/
theorem doiFold_results_extends (arts : List ArticleInfo)
    (metaOf : String → PDFMetadata) (l : List PDFEntry) :
    ∀ st : MatchState,
      ∃ t, (l.foldl (doiStep arts metaOf) st).results = st.results ++ t := by
  induction l with
  | nil => exact fun st => ⟨[], by simp⟩
  | cons pe rest ih =>
    intro st
    obtain ⟨t1, h1⟩ := doiStep_results_extends arts metaOf st pe
    obtain ⟨t2, h2⟩ := ih (doiStep arts metaOf st pe)
    exact ⟨t1 ++ t2, by rw [List.foldl_cons, h2, h1, List.append_assoc]⟩

/-- What one DOI step can do to the matched sets: nothing, or claim one
article of some key's singleton group — a key equal to, or in the
prefix relation with, the PDF's DOI — together with the PDF's path. -/
theorem doiStep_assign_shape (arts : List ArticleInfo)
    (metaOf : String → PDFMetadata) (st : MatchState) (pe : PDFEntry) :
    doiStep arts metaOf st pe = st ∨
    ∃ a k d, (metaOf pe.path).doi = some d ∧ d ≠ "" ∧
      a ∈ doiGroup arts k ∧ (k = d ∨ doiPrefixRel d k ∨ doiPrefixRel k d) ∧
      (doiStep arts metaOf st pe).mArts = st.mArts ++ [a.index] ∧
      (doiStep arts metaOf st pe).mPdfs = st.mPdfs ++ [pe.path] := by
  unfold doiStep
  by_cases h0 : pe.path ∈ st.mPdfs
  · rw [if_pos h0]
    exact Or.inl rfl
  · rw [if_neg h0]
    cases hd : (metaOf pe.path).doi with
    | none => exact Or.inl rfl
    | some d =>
      dsimp only
      by_cases hde : d = ""
      · rw [if_pos hde]
        exact Or.inl rfl
      · rw [if_neg hde]
        by_cases hg : doiGroup arts d ≠ []
        · rw [if_pos hg]
          cases hgr : doiGroup arts d with
          | nil => exact Or.inl rfl
          | cons a rest =>
            cases rest with
            | nil =>
              dsimp only
              by_cases hfree : a.index ∉ st.mArts ∧ pe.path ∉ st.mPdfs
              · rw [if_pos hfree]
                exact Or.inr ⟨a, d, d, rfl, hde,
                  by rw [hgr]; exact List.mem_singleton_self a, Or.inl rfl, rfl, rfl⟩
              · rw [if_neg hfree]
                exact Or.inl rfl
            | cons b rest2 => exact Or.inl rfl
        · rw [if_neg hg]
          cases hf : (doiKeys arts).find? (fun k =>
              decide (doiPrefixRel d k) && singleFreeGroup arts st.mArts k &&
              decide (pe.path ∉ st.mPdfs)) with
          | some k =>
            dsimp only
            have hrel : doiPrefixRel d k := by
              have hp := List.find?_some hf
              simp only [Bool.and_eq_true, decide_eq_true_eq] at hp
              exact hp.1.1
            cases hgr : doiGroup arts k with
            | nil => exact Or.inl rfl
            | cons a rest =>
              cases rest with
              | nil =>
                exact Or.inr ⟨a, k, d, rfl, hde,
                  by rw [hgr]; exact List.mem_singleton_self a,
                  Or.inr (Or.inl hrel), rfl, rfl⟩
              | cons b rest2 => exact Or.inl rfl
          | none =>
            dsimp only
            cases hf2 : (doiKeys arts).find? (fun k =>
                decide (doiPrefixRel k d) && singleFreeGroup arts st.mArts k &&
                decide (pe.path ∉ st.mPdfs)) with
            | some k =>
              dsimp only
              have hrel : doiPrefixRel k d := by
                have hp := List.find?_some hf2
                simp only [Bool.and_eq_true, decide_eq_true_eq] at hp
                exact hp.1.1
              cases hgr : doiGroup arts k with
              | nil => exact Or.inl rfl
              | cons a rest =>
                cases rest with
                | nil =>
                  exact Or.inr ⟨a, k, d, rfl, hde,
                    by rw [hgr]; exact List.mem_singleton_self a,
                    Or.inr (Or.inr hrel), rfl, rfl⟩
                | cons b rest2 => exact Or.inl rfl
            | none => exact Or.inl rfl

/-- The DOI-phase fold invariant behind claim C2: if PDF `P`'s DOI `D`
names exactly one article `A`, no other PDF of the list carries a DOI
equal to or prefix-related to `D`, paths identify entries, indices
identify articles, and neither `A` nor `P` is claimed in the incoming
state, then the fold emits the exact match for `A` and `P`. -/
theorem doi_fold_finds (arts : List ArticleInfo) (metaOf : String → PDFMetadata)
    (A : ArticleInfo) (D : String) (P : PDFEntry)
    (hgrp : doiGroup arts D = [A]) (hD : D ≠ "")
    (hPdoi : (metaOf P.path).doi = some D)
    (hidx : ∀ a ∈ arts, a.index = A.index → a = A) :
    ∀ l : List PDFEntry,
      P ∈ l →
      (∀ X ∈ l, X.path = P.path → X = P) →
      (∀ X ∈ l, X ≠ P → ∀ dX, (metaOf X.path).doi = some dX → dX ≠ "" →
        dX ≠ D ∧ ¬ doiPrefixRel dX D ∧ ¬ doiPrefixRel D dX) →
      ∀ st : MatchState, A.index ∉ st.mArts → P.path ∉ st.mPdfs →
        ∃ r ∈ (l.foldl (doiStep arts metaOf) st).results,
          r.article_index = A.index ∧
          r.pdf_filename = some (basename P.arcname) ∧
          r.score = 1 ∧ r.method = MatchMethod.doiExact ∧
          r.doi = some D ∧ r.confidence = "high" := by
  have hAdoi : A.doi = some D := by
    have hAmem : A ∈ doiGroup arts D := by
      rw [hgrp]
      exact List.mem_singleton_self A
    have := (List.mem_filter.mp hAmem).2
    simpa using this
  intro l
  induction l with
  | nil => exact fun hmem => absurd hmem (List.not_mem_nil P)
  | cons X rest ih =>
    intro hmem hpaths hun st hA hP
    rw [List.foldl_cons]
    by_cases hXP : X = P
    · subst hXP
      have hstep : doiStep arts metaOf st X =
          idAssign st X A 1 MatchMethod.doiExact (some D) := by
        unfold doiStep
        rw [if_neg hP]
        simp only [hPdoi]
        rw [if_neg hD, if_pos (by rw [hgrp]; simp)]
        simp only [hgrp]
        rw [if_pos ⟨hA, hP⟩]
      obtain ⟨t, ht⟩ :=
        doiFold_results_extends arts metaOf rest (doiStep arts metaOf st X)
      refine ⟨MatchResult.mk A.index A.article_id (articleTitleOf A)
        (some (basename X.arcname)) 1 MatchMethod.doiExact (some D) "high",
        ?_, rfl, rfl, rfl, rfl, rfl, rfl⟩
      rw [ht, hstep]
      simp [idAssign]
    · have hXmem : X ∈ X :: rest := List.mem_cons_self X rest
      have hshape := doiStep_assign_shape arts metaOf st X
      have hpre : A.index ∉ (doiStep arts metaOf st X).mArts ∧
          P.path ∉ (doiStep arts metaOf st X).mPdfs := by
        rcases hshape with heq | ⟨a, k, d, hdd, hdne, hak, hrel, hma, hmp⟩
        · rw [heq]
          exact ⟨hA, hP⟩
        · constructor
          · rw [hma]
            intro hin
            rcases List.mem_append.mp hin with hin | hin
            · exact hA hin
            · have hidxeq : a.index = A.index := (by simpa using hin : A.index = a.index).symm
              have haA : a = A := hidx a (List.mem_of_mem_filter hak) hidxeq
              have hadoi : a.doi = some k := by
                have := (List.mem_filter.mp hak).2
                simpa using this
              have hkD : k = D := by
                rw [haA, hAdoi] at hadoi
                exact (Option.some_inj.mp hadoi).symm
              obtain ⟨h1, h2, h3⟩ := hun X hXmem hXP d hdd hdne
              rcases hrel with hkd | hrel | hrel
              · exact h1 (by rw [← hkd, hkD])
              · exact h2 (by rw [← hkD]; exact hrel)
              · exact h3 (by rw [← hkD]; exact hrel)
          · rw [hmp]
            intro hin
            rcases List.mem_append.mp hin with hin | hin
            · exact hP hin
            · have hpeq : X.path = P.path := by
                have := (by simpa using hin : P.path = X.path)
                exact this.symm
              exact hXP (hpaths X hXmem hpeq)
      have hPrest : P ∈ rest := by
        rcases List.mem_cons.mp hmem with h | h
        · exact absurd h.symm hXP
        · exact h
      exact ih hPrest
        (fun Y hY => hpaths Y (List.mem_cons_of_mem X hY))
        (fun Y hY => hun Y (List.mem_cons_of_mem X hY))
        (doiStep arts metaOf st X) hpre.1 hpre.2

/-- Claim C2 (amended): if article `A`'s DOI `D` names exactly one
article, PDF `P`'s extracted DOI equals `D`, and no OTHER PDF of the
bundle carries a DOI equal to or prefix-related to `D` (the run's
earlier-phase assignments do NOT protect the pair — Phase 1 discards
them — but same-phase competitors can steal the article), then the run's
combined results contain the exact DOI match for `A` and `P` (method
doi_exact, score 1, confidence high), regardless of any fuzzy
similarity of the pair. -/
theorem C2_amended (arts : List ArticleInfo) (pdfs : List PDFEntry)
    (metaOf : String → PDFMetadata) (cfg : Thresholds)
    (A : ArticleInfo) (D : String) (P : PDFEntry)
    (hgrp : doiGroup arts D = [A]) (hD : D ≠ "")
    (hPdoi : (metaOf P.path).doi = some D)
    (hidx : ∀ a ∈ arts, a.index = A.index → a = A)
    (hmem : P ∈ pdfs)
    (hpaths : ∀ X ∈ pdfs, X.path = P.path → X = P)
    (hun : ∀ X ∈ pdfs, X ≠ P → ∀ dX, (metaOf X.path).doi = some dX → dX ≠ "" →
      dX ≠ D ∧ ¬ doiPrefixRel dX D ∧ ¬ doiPrefixRel D dX) :
    ∃ r ∈ (phaseResults arts pdfs metaOf cfg).1,
      r.article_index = A.index ∧
      r.pdf_filename = some (basename P.arcname) ∧
      r.score = 1 ∧ r.method = MatchMethod.doiExact ∧ r.doi = some D ∧
      r.confidence = "high" := by
  obtain ⟨r, hr, hprops⟩ := doi_fold_finds arts metaOf A D P hgrp hD hPdoi hidx
    pdfs hmem hpaths hun ⟨[], [], []⟩ (List.not_mem_nil _) (List.not_mem_nil _)
  refine ⟨r, ?_, hprops⟩
  have hin : r ∈ (match_by_doi pdfs arts metaOf
      (match_by_edn pdfs arts metaOf).mArts
      (match_by_edn pdfs arts metaOf).mPdfs).results := by
    unfold match_by_doi
    exact hr
  unfold phaseResults
  dsimp only
  exact List.mem_append.mpr (Or.inl (List.mem_append.mpr (Or.inr hin)))

/-- Witness for claim C2's amended pairing guarantee: one article, one
PDF, the same DOI. -/
theorem C2_witness :
    doiGroup [c2Art] "10.1234/abcd" = [c2Art] ∧
    ∃ r ∈ (phaseResults [c2Art] [⟨"p1.pdf", "p1.pdf"⟩] c2Meta
        defaultThresholds).1,
      r.article_index = c2Art.index ∧
      r.pdf_filename = some (basename (⟨"p1.pdf", "p1.pdf"⟩ : PDFEntry).arcname) ∧
      r.score = 1 ∧ r.method = MatchMethod.doiExact ∧
      r.doi = some "10.1234/abcd" ∧ r.confidence = "high" :=
  ⟨rfl,
   C2_amended [c2Art] [⟨"p1.pdf", "p1.pdf"⟩] c2Meta defaultThresholds c2Art
    "10.1234/abcd" ⟨"p1.pdf", "p1.pdf"⟩ rfl (by decide) rfl
    (fun a ha _ => by simpa using ha)
    (by simp)
    (fun X hX _ => by simpa using hX)
    (fun X hX hne => absurd (by simpa using hX) hne)⟩

/-! ## Claim C3: no DOI-based exclusion from Phase 2 -/

/-- The title component reads only the PDF title. -/
theorem titleComponent_congr (m m' : PDFMetadata) (a : ArticleInfo)
    (ht : m.title = m'.title) : titleComponent m a = titleComponent m' a := by
  unfold titleComponent
  rw [ht]

/-- The authors component reads only the PDF authors. -/
theorem authorsComponent_congr (m m' : PDFMetadata) (a : ArticleInfo)
    (ha : m.authors = m'.authors) :
    authorsComponent m a = authorsComponent m' a := by
  unfold authorsComponent
  rw [ha]

/-- The combined score reads the PDF metadata only through its title and
authors — never the DOI. -/
theorem calculate_combined_score_congr (m m' : PDFMetadata) (a : ArticleInfo)
    (n : String) (ht : m.title = m'.title) (ha : m.authors = m'.authors) :
    calculate_combined_score m a n = calculate_combined_score m' a n := by
  unfold calculate_combined_score
  rw [titleComponent_congr m m' a ht, authorsComponent_congr m m' a ha]

/-- The scored-pair table ignores the PDFs' DOI metadata. -/
theorem scoredPairs_congr (remArts : List ArticleInfo) (remPdfs : List PDFEntry)
    (metaOf metaOf' : String → PDFMetadata)
    (h : ∀ p, (metaOf p).title = (metaOf' p).title ∧
      (metaOf p).authors = (metaOf' p).authors) :
    scoredPairs remArts remPdfs metaOf = scoredPairs remArts remPdfs metaOf' := by
  unfold scoredPairs
  congr 1
  congr 1
  apply List.map_congr_left
  intro a ha
  apply List.map_congr_left
  intro pe hpe
  rw [calculate_combined_score_congr (metaOf pe.path) (metaOf' pe.path) a
    (basename pe.arcname) (h pe.path).1 (h pe.path).2]

/-- Claim C3 (amended): Phase 2 applies no DOI-based exclusion at all —
its candidate set is every still-unmatched PDF, and its outcome is
invariant under any change of the PDFs' DOI (or EDN) metadata: two
metadata maps that agree on titles and authors give identical fallback
results, whatever DOIs they carry. A PDF whose long, well-formed DOI
matched nothing in Phase 1 is still scored and can still be assigned. -/
theorem C3_amended (pdfs : List PDFEntry) (arts : List ArticleInfo)
    (cfg : Thresholds) (mArts : List Nat) (mPdfs : List String)
    (metaOf metaOf' : String → PDFMetadata)
    (h : ∀ p, (metaOf p).title = (metaOf' p).title ∧
      (metaOf p).authors = (metaOf' p).authors) :
    match_fallback pdfs arts metaOf cfg mArts mPdfs =
      match_fallback pdfs arts metaOf' cfg mArts mPdfs := by
  unfold match_fallback
  dsimp only
  rw [scoredPairs_congr _ _ metaOf metaOf' h]

/-- The title shared by claim C3's article and PDF. -/
def c3Title : String := "ecology of volga rivers"

/-- Claim C3's article: a title, no DOI, no EDN. -/
def c3Art : ArticleInfo :=
  { index := 0, article_id := none, num := none, pages := none,
    title_rus := none, title_eng := some c3Title, authors_rus := [],
    authors_eng := [], doi := none, edn := none }

/-- Claim C3's PDF entry. -/
def c3Pdf : PDFEntry := ⟨"p.pdf", "p.pdf"⟩

/-- Claim C3's PDF metadata: the article's title plus a long, valid DOI
that matches nothing in the manifest. -/
def c3Meta : String → PDFMetadata := fun _ =>
  { title := some c3Title, authors := [], doi := some "10.12345/abcdefghij",
    doi_candidates := [], edn := none }

/-- The run configuration of claim C3's counterexample: the class
defaults with adaptive thresholds off (`PDFMatcher(adaptive_thresholds=
False)`). -/
noncomputable def cfg3 : Thresholds :=
  { high := 0.75, medium := 0.45, low := 0.25, margin := 0.15, adaptive := false }

/-- The single scored pair of claim C3's fallback run. -/
noncomputable def c3Pair : ScoredPair :=
  ⟨(calculate_combined_score (c3Meta c3Pdf.path) c3Art (basename c3Pdf.arcname)).1,
   c3Art, c3Pdf,
   (calculate_combined_score (c3Meta c3Pdf.path) c3Art (basename c3Pdf.arcname)).2⟩

/-- The pair's combined score: title similarity 1 at weight 0.60, every
other component 0. -/
theorem c3Pair_score : c3Pair.score = 0.6 := by
  have htc : titleComponent (c3Meta c3Pdf.path) c3Art =
      calculate_title_similarity c3Title c3Title := rfl
  have h0 : authorsComponent (c3Meta c3Pdf.path) c3Art = 0 := rfl
  have h1 : pagesComponent c3Art (basename c3Pdf.arcname) = 0 := rfl
  have h2 : filenameComponent c3Art (basename c3Pdf.arcname) = 0 := rfl
  show (calculate_combined_score (c3Meta c3Pdf.path) c3Art
    (basename c3Pdf.arcname)).1 = 0.6
  unfold calculate_combined_score
  dsimp only
  rw [htc, calculate_title_similarity_refl (by decide), h0, h1, h2]
  norm_num [wTitle, wAuthors, wPages, wFilename]

/-- The pair table of claim C3's fallback run. -/
theorem c3_scoredPairs : scoredPairs [c3Art] [c3Pdf] c3Meta = [c3Pair] := by
  have hpos : decide ((0 : ℝ) < c3Pair.score) = true := by
    rw [decide_eq_true_eq, c3Pair_score]
    norm_num
  show List.filter (fun q => decide (0 < q.score)) [c3Pair] = [c3Pair]
  rw [List.filter_cons, if_pos hpos]
  rfl

/-- The article is not ambiguous: it has a single candidate. -/
theorem c3_not_ambiguous :
    ¬ isAmbiguous [c3Pair] cfg3.margin c3Pair.art.index := by
  intro h
  have h1 := h.1
  rw [show candsFor [c3Pair] c3Pair.art.index = [c3Pair] from rfl] at h1
  simp at h1

/-- Level 1 skips the pair: 0.6 is below the high cutoff 0.75. -/
theorem c3_level1 :
    [c3Pair].foldl (level1Step [c3Pair] cfg3)
      (⟨[], [], []⟩ : FallbackState) = (⟨[], [], []⟩ : FallbackState) := by
  show level1Step [c3Pair] cfg3 ⟨[], [], []⟩ c3Pair = _
  unfold level1Step
  rw [if_neg (by simp), if_neg c3_not_ambiguous,
    if_neg (by rw [c3Pair_score, show cfg3.high = (0.75 : ℝ) from rfl]; norm_num)]

/-- Level 2 assigns the pair at medium: 0.45 ≤ 0.6 < 0.75. -/
theorem c3_level2 :
    [c3Pair].foldl (level2Step [c3Pair] cfg3)
      (⟨[], [], []⟩ : FallbackState) =
    fallbackAssign ⟨[], [], []⟩ c3Art c3Pdf c3Pair.score c3Pair.comps
      "medium" := by
  show level2Step [c3Pair] cfg3 ⟨[], [], []⟩ c3Pair = _
  unfold level2Step
  rw [if_neg (by simp), if_neg c3_not_ambiguous,
    if_pos ⟨by rw [c3Pair_score, show cfg3.medium = (0.45 : ℝ) from rfl]; norm_num,
      by rw [c3Pair_score, show cfg3.high = (0.75 : ℝ) from rfl]; norm_num⟩]
  rfl

/-- No article is deferred to level 3. -/
theorem c3_ambiguousList : ambiguousList [c3Pair] cfg3.margin = [] := by
  show List.filter (fun i => decide (isAmbiguous [c3Pair] cfg3.margin i))
    [c3Pair.art.index] = []
  rw [List.filter_cons,
    if_neg (by simp only [decide_eq_true_eq]; exact c3_not_ambiguous)]
  rfl

/-- Claim C3, counterexample: the PDF's extracted DOI is syntactically
valid and 19 characters long, Phase 1 matches it to nothing — and Phase
2 still scores the PDF and assigns it to the article at medium
confidence: no DOI-based exclusion exists. -/
theorem C3_counterexample :
    is_valid_doi "10.12345/abcdefghij" = true ∧
    10 ≤ ("10.12345/abcdefghij" : String).length ∧
    (match_by_doi [c3Pdf] [c3Art] c3Meta [] []).results = [] ∧
    ((match_fallback [c3Pdf] [c3Art] c3Meta cfg3 [] []).1.map
      (fun r => (r.article_index, r.pdf_filename, r.confidence))) =
      [(0, some "p.pdf", "medium")] := by
  refine ⟨by decide, by decide, rfl, ?_⟩
  unfold match_fallback
  dsimp only
  rw [show List.filter (fun a => decide (a.index ∉ ([] : List Nat)))
      [c3Art] = [c3Art] from rfl,
    show List.filter (fun pe => decide (pe.path ∉ ([] : List String)))
      [c3Pdf] = [c3Pdf] from rfl]
  rw [c3_scoredPairs]
  rw [if_neg (by decide), if_neg (by simp)]
  rw [show sortDescBy (fun q : ScoredPair => q.score) [c3Pair] = [c3Pair]
    from rfl]
  rw [show (if cfg3.adaptive = true then
      adjust_thresholds (List.map (fun q : ScoredPair => q.score) [c3Pair]) cfg3
      else cfg3) = cfg3 from rfl]
  rw [c3_level1, c3_level2, c3_ambiguousList]
  rfl

/-- Claim C3's metadata with the DOI removed. -/
def c3MetaNoDoi : String → PDFMetadata := fun _ =>
  { title := some c3Title, authors := [], doi := none,
    doi_candidates := [], edn := none }

/-- Witness for claim C3's amended invariance: stripping the unmatched
DOI from the PDF's metadata leaves the fallback's outcome unchanged. -/
theorem C3_witness :
    (∀ p : String, (c3Meta p).title = (c3MetaNoDoi p).title ∧
      (c3Meta p).authors = (c3MetaNoDoi p).authors) ∧
    match_fallback [c3Pdf] [c3Art] c3Meta cfg3 [] [] =
      match_fallback [c3Pdf] [c3Art] c3MetaNoDoi cfg3 [] [] :=
  ⟨fun p => ⟨rfl, rfl⟩,
   C3_amended [c3Pdf] [c3Art] cfg3 [] [] c3Meta c3MetaNoDoi
    (fun p => ⟨rfl, rfl⟩)⟩
